import Mathlib

/-!
# kad-go: routing table and node lookup

A shallow embedding of `src/RoutingTable.go` and `src/Node.go`.

* Go arrays are lists whose length is fixed by the structure
  (`[Distance_Buckets]Bucket`); an index expression `a[i]` is `a[i]?`, and
  `none` stands for the run-time panic of an out-of-range index.
* `uint32` arithmetic is arithmetic on `Nat` modulo `2 ^ 32`.
* The types `Key`, `NodeId`, `Bucket` and `Message` are declared in files of
  the repository that are not part of `src/`; they are modelled from the
  specification and every such definition says so in its doc comment.
* Network input is explicit: a `Net` answers a dial and a request.
* The recursion of `findNodeRemote` is not bounded by the source, so the
  embedding carries a fuel argument and reports `Outcome.outOfFuel` when the
  fuel does not suffice.
-/

namespace Kad

/-! ## Identity and distance model -/

/-- Number of buckets in the routing table (`RoutingTable.go`, line 9). -/
def Distance_Buckets : Nat := 160

/-- Modelled from the spec: `Key` is a fixed-length bit string of 160 bits
(the declaration of the type is not in `src/`). -/
abbrev Key := Fin (2 ^ 160)

/-- Number of agreeing bits of `a` and `b` counted downwards from bit `i - 1`,
stopping at the first bit that differs. -/
def sharedFrom (a b : Nat) : Nat → Nat
  | 0 => 0
  | i + 1 => if a.testBit i = b.testBit i then sharedFrom a b i + 1 else 0

/-- Modelled from the spec: `Key.SharedPrefixLen` is missing from `src/`;
"the number of leading bits that agree between two keys", an integer in
`[0, bit-length]`, with `sharedPrefixLength(k, k) == bitLength`. -/
def Key.SharedPrefixLen (a b : Key) : Nat := sharedFrom a.val b.val 160

/-- Modelled from the spec: `NodeId` is "a Key plus a reachable network
address". In `src/Node.go` the address field `IP` is handed to `net.DialTCP`,
so it is a `*net.TCPAddr`; the pointer is modelled by a number (`0` for `nil`)
and the derived equality is the `==` of Go on the struct, which compares the
key and the pointer. -/
structure NodeId where
  Key : Key
  IP : Nat
  deriving DecidableEq, Repr

/-- Modelled from the spec: `NodeId.DistanceTo` is missing from `src/`; its
`uint32` result is handed to `bucketIndex` as a shared-prefix length and is a
function of the two keys only. -/
def NodeId.DistanceTo (a b : NodeId) : Nat := a.Key.SharedPrefixLen b.Key

/-! ## Bucket -/

/-- Modelled from the spec: `Bucket` is "an ordered sequence of NodeId"; the
source reads its field `nodes`. The zero value is the empty bucket. -/
structure Bucket where
  nodes : List NodeId
  deriving DecidableEq, Repr

/-- Position of the first contact with key `k`, if there is one. -/
def indexOfKey (k : Key) : List NodeId → Option Nat
  | [] => none
  | x :: xs => if x.Key = k then some 0 else (indexOfKey k xs).map (· + 1)

/-- Modelled from the spec: `NewBucket` is missing from `src/`; it "builds a
new bucket from those contacts". -/
def NewBucket (nodes : List NodeId) : Bucket := ⟨nodes⟩

namespace Bucket

/-- Modelled from the spec: `Bucket.Has` is missing from `src/`;
"`Has(id) -> (found: bool, index)` — linear scan by Key equality; returns
position for subsequent `Get`". The index returned with `false` is never read
by the callers in `src/`; it is `0` here. -/
def Has (b : Bucket) (id : NodeId) : Bool × Nat :=
  match indexOfKey id.Key b.nodes with
  | some i => (true, i)
  | none => (false, 0)

/-- Modelled from the spec: `Bucket.Get` is missing from `src/`;
"`Get(index) -> NodeId` — precondition: index valid; undefined/fatal on
misuse" (`none`). -/
def Get (b : Bucket) (index : Nat) : Option NodeId := b.nodes[index]?

/-- Modelled from the spec: `Bucket.IsEmpty` is missing from `src/`;
"true iff no contacts". -/
def IsEmpty (b : Bucket) : Bool := b.nodes.isEmpty

/-- Modelled from the spec: `Bucket.Add` is missing from `src/`;
"insert-or-refresh: if already present, move to most-recently-seen position;
if absent and the bucket has capacity, append". The reference has no capacity
bound and no eviction. The most-recently-seen position is the tail. -/
def Add (b : Bucket) (contact : NodeId) : Bucket :=
  match b.nodes.find? (fun x => decide (x.Key = contact.Key)) with
  | some old => ⟨b.nodes.filter (fun x => decide (x.Key ≠ contact.Key)) ++ [old]⟩
  | none => ⟨b.nodes ++ [contact]⟩

end Bucket

/-! ## Routing table (`src/RoutingTable.go`) -/

/-- The routing table: `buckets` is the Go array `[Distance_Buckets]Bucket`. -/
structure RoutingTable where
  currentNode : NodeId
  buckets : List Bucket
  hlen : buckets.length = Distance_Buckets

/-- The function `bucketIndex` on `uint32`: `Distance_Buckets - prefixLen`
wraps modulo `2 ^ 32`; the value `Distance_Buckets` is decremented. -/
def bucketIndex (pfxLen : Nat) : Nat :=
  let index := (Distance_Buckets + 2 ^ 32 - pfxLen % 2 ^ 32) % 2 ^ 32
  if index = Distance_Buckets then index - 1 else index

namespace RoutingTable

/-- The method `RoutingTable.Add`: the new table and the index returned;
`none` when `rt.buckets[index]` is out of range. -/
def Add (rt : RoutingTable) (contact : NodeId) : Option (RoutingTable × Nat) :=
  let index := bucketIndex (rt.currentNode.DistanceTo contact)
  match rt.buckets[index]? with
  | none => none
  | some b =>
    some ({ rt with
            buckets := rt.buckets.set index (b.Add contact)
            hlen := by rw [List.length_set]; exact rt.hlen }, index)

/-- The loop `for rt.buckets[index].IsEmpty() && index > 0 { index-- }`
followed by `return rt.buckets[index]`, shared by `FindClosestBucket` and
`FindClosestBucketById`. -/
def closestLoop (bs : List Bucket) : Nat → Option Bucket
  | 0 => bs[0]?
  | i + 1 =>
    match bs[i + 1]? with
    | none => none
    | some b => if b.IsEmpty then closestLoop bs i else some b

/-- The method `RoutingTable.FindClosestBucket`. -/
def FindClosestBucket (rt : RoutingTable) (id : NodeId) : Option Bucket :=
  closestLoop rt.buckets (bucketIndex (rt.currentNode.DistanceTo id))

/-- The method `RoutingTable.FindClosestBucketById`. -/
def FindClosestBucketById (rt : RoutingTable) (id : Key) : Option Bucket :=
  closestLoop rt.buckets (bucketIndex (rt.currentNode.Key.SharedPrefixLen id))

/-- The method `RoutingTable.IsNodeIdInBucket` on a Go `int` index; `none` is
the panic of `log.Panicf` (or of an index out of range). -/
def IsNodeIdInBucket (rt : RoutingTable) (id : NodeId) (index : Int) : Option Bool :=
  if index > (Distance_Buckets : Int) ∨ index < 0 then none
  else
    let index := if index = (Distance_Buckets : Int) then index - 1 else index
    match rt.buckets[index.toNat]? with
    | none => none
    | some bucket => some (bucket.Has id).1

/-- The method `RoutingTable.LastBucket`. -/
def LastBucket (rt : RoutingTable) : Option Bucket :=
  rt.buckets[rt.buckets.length - 1]?

/-- The loop of `LastNotEmptyBucket` from index `i` while `i > 0`, followed
by the final `return rt.buckets[len(rt.buckets)-1]`. -/
def lastNotEmptyLoop (bs : List Bucket) : Nat → Option Bucket
  | 0 => bs[bs.length - 1]?
  | i + 1 =>
    match bs[i + 1]? with
    | none => none
    | some b => if !b.IsEmpty then some b else lastNotEmptyLoop bs i

/-- The method `RoutingTable.LastNotEmptyBucket`. -/
def LastNotEmptyBucket (rt : RoutingTable) : Option Bucket :=
  lastNotEmptyLoop rt.buckets (Distance_Buckets - 1)

end RoutingTable

/-- The composite literal `&RoutingTable{currentNode: id, buckets: ...}` of
`NewRoutingTable`: every bucket is the zero value. -/
def RoutingTable.literal (id : NodeId) : RoutingTable :=
  { currentNode := id
    buckets := List.replicate Distance_Buckets ⟨[]⟩
    hlen := List.length_replicate _ _ }

/-- The function `NewRoutingTable`: an array of empty buckets, then
`rt.Add(id)`. -/
def NewRoutingTable (id : NodeId) : Option RoutingTable :=
  let rt : RoutingTable := RoutingTable.literal id
  (rt.Add id).map (·.1)

/-! ## Messages and the network -/

/-- Modelled from the spec: the message types of the wire protocol, in the
order of the enumeration "PING, PONG, FIND_NODE, FIND_VALUE, STORE" (the
declaration is not in `src/`). -/
inductive MessageType where
  | PING
  | PONG
  | FIND_NODE
  | FIND_VALUE
  | STORE
  deriving DecidableEq, Repr

/-- Modelled from the spec: `Message` is "the wire-level RPC envelope": type,
`From`/`To` key, `FindId` and the ordered list `Nodes` (the declaration is not
in `src/`). The field `Type` of the source is `Typ`. A `nil` slice and an
empty slice are both the empty list: the source only tests
`msg.Nodes != nil && len(msg.Nodes) != 0`. -/
structure Message where
  Typ : MessageType
  From : Key
  TO : Key
  FindId : Key
  Nodes : List NodeId
  deriving DecidableEq, Repr

/-- Modelled from the spec: `Message.Has` is missing from `src/`; like
`Bucket.Has` it scans `Nodes` by Key equality and returns the position, which
the source uses in `msg.Nodes[index]`. -/
def Message.Has (msg : Message) (id : NodeId) : Bool × Nat :=
  match indexOfKey id.Key msg.Nodes with
  | some i => (true, i)
  | none => (false, 0)

/-- The network as seen by `findNodeRemote`: dialling contact `c` and sending
`req` either fails (`none`: `net.DialTCP` returns an error and `checkError`
ends the process) or leaves a decoded message in `msg`. -/
abbrev Net := NodeId → Message → Option Message

/-- How a call ends: it returns, it stops the process (a panic or
`os.Exit(1)`), or the fuel of the embedding is used up. -/
inductive Outcome (α : Type) where
  | returned (a : α)
  | fatal
  | outOfFuel
  deriving DecidableEq, Repr

/-- The node (`src/Node.go`); the field `DHT` is never read in `src/`. -/
structure Node where
  NodeId : NodeId
  RoutingTable : RoutingTable

/-- The function `NewNodeWithId`. -/
def NewNodeWithId (id : NodeId) : Option Node :=
  (NewRoutingTable id).map (fun rt => { NodeId := id, RoutingTable := rt })

/-- Modelled from the spec: `NewNodeIdWithIp` is missing from `src/`; a
`NodeId` is "a Key plus a reachable network address". -/
def NewNodeIdWithIp (id : Key) (ip : Nat) : NodeId := ⟨id, ip⟩

/-- Modelled from the spec: `NewNodeIdWith` is missing from `src/`; a `NodeId`
for a caller-supplied key. The address it gives is not described; it is the
argument `addr`. -/
def NewNodeIdWith (addr : Nat) (key : Key) : NodeId := ⟨key, addr⟩

/-- The function `NewNodeWithKey`. -/
def NewNodeWithKey (addr : Nat) (key : Key) : Option Node :=
  let nodeId := NewNodeIdWith addr key
  NewNodeWithId nodeId

/-- The function `NewNode`; `randomKey` is the key `NewNodeKey()` returns. -/
def NewNode (randomKey : Key) (addr : Nat) : Option Node :=
  let key := randomKey
  NewNodeWithKey addr key

/-- The function `NewNodeWithPort`; `randomKey` is the key `NewNodeKey()`
returns and `resolved` what `net.ResolveTCPAddr` returns for the address
(`none` for an error). `none` is a panic. -/
def NewNodeWithPort (randomKey : Key) (resolved : Option Nat) (port : Nat) :
    Option Node :=
  if port > 65535 then none
  else
    let id := randomKey
    match resolved with
    | none => none
    | some ip =>
      let nodeId := NewNodeIdWithIp id ip
      (NewRoutingTable nodeId).map (fun rt => { NodeId := nodeId, RoutingTable := rt })

/-- The message `Message{Type: PING, From: n.NodeId.Key, TO: other.NodeId.Key}`
built by `Ping`; the other fields are zero values. -/
def pingRequest (n other : Node) : Message :=
  { Typ := .PING, From := n.NodeId.Key, TO := other.NodeId.Key, FindId := 0, Nodes := [] }

/-- The method `Node.Ping`: the message left by `decoder.Decode(&msg)` when
the peer can be dialled. -/
def Node.Ping (net : Net) (n other : Node) : Outcome Message :=
  match net other.NodeId (pingRequest n other) with
  | none => .fatal
  | some msg => .returned msg

/-- What `findNodeRemote` returns: the pointer, the error, and the requests
sent so far, each with the contact dialled, in order. -/
structure RemoteResult where
  found : Option NodeId
  err : Option String
  sent : List (NodeId × Message)
  deriving DecidableEq, Repr

/-- Puts the requests `pre`, sent earlier, in front of those of an outcome. -/
def RemoteResult.after (pre : List (NodeId × Message)) :
    Outcome RemoteResult → Outcome RemoteResult
  | .returned r => .returned { r with sent := pre ++ r.sent }
  | .fatal => .fatal
  | .outOfFuel => .outOfFuel

/-- The request built in the loop of `findNodeRemote`. -/
def findNodeRequest (self : NodeId) (nodeId searchedNode : NodeId) : Message :=
  { Typ := .FIND_NODE, From := self.Key, TO := nodeId.Key,
    FindId := searchedNode.Key, Nodes := [] }

/-- The loop `for _, nodeId := range bucket.nodes` of `findNodeRemote`;
`recurse` is the recursive call `n.findNodeRemote(searchedNode, b)`. -/
def queryLoop (net : Net) (self : NodeId) (searchedNode : NodeId)
    (recurse : Bucket → Outcome RemoteResult) :
    List NodeId → Outcome RemoteResult
  | [] => .returned ⟨none, some "Node not found or not in the network", []⟩
  | nodeId :: rest =>
    let req := findNodeRequest self nodeId searchedNode
    match net nodeId req with
    | none => .fatal
    | some msg =>
      match msg.Has searchedNode with
      | (true, index) =>
        match msg.Nodes[index]? with
        | none => .fatal
        | some node => .returned ⟨some node, none, [(nodeId, req)]⟩
      | (false, _) =>
        if msg.Nodes.length ≠ 0 then
          RemoteResult.after [(nodeId, req)] (recurse (NewBucket msg.Nodes))
        else
          RemoteResult.after [(nodeId, req)]
            (queryLoop net self searchedNode recurse rest)

/-- The method `Node.findNodeRemote`; the first argument bounds the depth of
the recursion. -/
def findNodeRemote (net : Net) (self : NodeId) (searchedNode : NodeId) :
    Nat → Bucket → Outcome RemoteResult
  | 0, _ => .outOfFuel
  | fuel + 1, bucket =>
    match bucket.Has self with
    | (true, i) =>
      match bucket.Get i with
      | none => .fatal
      | some id => .returned ⟨some id, some "Can't search for self", []⟩
    | (false, _) =>
      queryLoop net self searchedNode
        (findNodeRemote net self searchedNode fuel) bucket.nodes

/-- What `FindNode` returns, with the requests sent and the routing table the
node holds afterwards. -/
structure FindResult where
  found : Option NodeId
  err : Option String
  sent : List (NodeId × Message)
  table : RoutingTable

/-- The method `Node.FindNode`. -/
def Node.FindNode (net : Net) (fuel : Nat) (n : Node) (node : Kad.NodeId) :
    Outcome FindResult :=
  if n.NodeId = node then
    .returned ⟨none, some "Can't search for self", [], n.RoutingTable⟩
  else
    match n.RoutingTable.FindClosestBucket node with
    | none => .fatal
    | some bucket =>
      match bucket.Has node with
      | (true, nodeIndex) =>
        match bucket.Get nodeIndex with
        | none => .fatal
        | some get => .returned ⟨some get, none, [], n.RoutingTable⟩
      | (false, _) =>
        match findNodeRemote net n.NodeId node fuel bucket with
        | .outOfFuel => .outOfFuel
        | .fatal => .fatal
        | .returned r =>
          match r.err with
          | some e => .returned ⟨none, some e, r.sent, n.RoutingTable⟩
          | none =>
            match r.found with
            | none => .fatal
            | some found =>
              match n.RoutingTable.Add found with
              | none => .fatal
              | some (rt, _) => .returned ⟨some found, none, r.sent, rt⟩

/-- The method `Node.handleConnection` for the message `msg` left by
`decoder.Decode(&msg)`: the response encoded on the connection, if any, and
the routing table afterwards (`none` is a panic). -/
def Node.handleConnection (n : Node) (msg : Message) :
    Option (Option Message × Kad.RoutingTable) :=
  if msg.TO ≠ n.NodeId.Key then some (none, n.RoutingTable)
  else
    let sender := msg.From
    let receiver := msg.TO
    let msg := { msg with TO := sender, From := receiver }
    match msg.Typ with
    | .PING => some (some { msg with Typ := .PONG }, n.RoutingTable)
    | .FIND_NODE =>
      match n.RoutingTable.FindClosestBucketById msg.FindId with
      | none => none
      | some b => some (some { msg with Nodes := b.nodes }, n.RoutingTable)
    | _ => some (some msg, n.RoutingTable)

/-- The routing tables a node `self` can hold: the table of
`NewRoutingTable(self)` and every table obtained from one by a call of
`RoutingTable.Add` that returns. -/
inductive Reachable (self : NodeId) : RoutingTable → Prop where
  | init {rt : RoutingTable} : NewRoutingTable self = some rt → Reachable self rt
  | add {rt rt1 : RoutingTable} {c : NodeId} {i : Nat} :
      Reachable self rt → rt.Add c = some (rt1, i) → Reachable self rt1

/-! ## Concrete nodes and tables -/

/-- A local node with the all-zero key. -/
def idA : NodeId := ⟨0, 1⟩

/-- A contact that differs from `idA` in the last bit only: 159 shared bits. -/
def idB : NodeId := ⟨1, 2⟩

/-- A contact that differs from `idA` in the first bit: no shared bit. -/
def idK : NodeId := ⟨2 ^ 159, 3⟩

/-- The table of a fresh node `idA`: the node itself in bucket 0. -/
def tableA : RoutingTable :=
  { currentNode := idA
    buckets := (List.replicate Distance_Buckets ⟨[]⟩).set 0 ⟨[idA]⟩
    hlen := by rw [List.length_set]; exact List.length_replicate _ _ }

/-- The table of `idA` after `Add(idB)`: `idB` in bucket 1. -/
def tableAB : RoutingTable :=
  { currentNode := idA
    buckets := ((List.replicate Distance_Buckets ⟨[]⟩).set 0 ⟨[idA]⟩).set 1 ⟨[idB]⟩
    hlen := by rw [List.length_set, List.length_set]; exact List.length_replicate _ _ }

/-- A contact with the key of `idA` and another address. -/
def idA2 : NodeId := ⟨0, 9⟩

/-- The table of `idA` after `Add(idK)`: `idK` in bucket 159. -/
def tableAK : RoutingTable :=
  { currentNode := idA
    buckets := ((List.replicate Distance_Buckets ⟨[]⟩).set 0 ⟨[idA]⟩).set 159 ⟨[idK]⟩
    hlen := by rw [List.length_set, List.length_set]; exact List.length_replicate _ _ }

/-- The fresh node `idA`. -/
def nodeA : Node := ⟨idA, tableA⟩

/-- The node `idA` that knows `idB`. -/
def nodeAB : Node := ⟨idA, tableAB⟩

/-- The node `idA` that knows `idK`. -/
def nodeAK : Node := ⟨idA, tableAK⟩

/-- A network in which no peer can be dialled. -/
def netDown : Net := fun _ _ => none

/-- A network in which every peer answers without contacts. -/
def netSilent : Net := fun _ req => some { req with Nodes := [] }

/-- A network in which every peer answers with the one contact `k`. -/
def netKnows (k : NodeId) : Net := fun _ req => some { req with Nodes := [k] }

/-- A PING addressed to the key of `idB`. -/
def pingToB : Message := ⟨.PING, 5, 1, 0, []⟩

/-- The table of a fresh node `idB`. -/
def tableB : RoutingTable :=
  { currentNode := idB
    buckets := (List.replicate Distance_Buckets ⟨[]⟩).set 0 ⟨[idB]⟩
    hlen := by rw [List.length_set]; exact List.length_replicate _ _ }

/-- The fresh node `idB`. -/
def nodeB : Node := ⟨idB, tableB⟩

/-- The message `Message{}` that `handleConnection` holds when
`decoder.Decode(&msg)` fails: every field is a zero value, the keys are
all-zero and `Nodes` is nil. The zero value of the type field is taken to be
the first message type. -/
def zeroMessage : Message := ⟨.PING, 0, 0, 0, []⟩

/-- A contact that differs from `idA` in the last bit but one: 158 shared
bits. -/
def idC : NodeId := ⟨2, 4⟩

/-- A network in which the peer `c` answers with the one contact `k` and every
other peer answers without contacts. -/
def netOnly (c k : NodeId) : Net :=
  fun x req => if x = c then some { req with Nodes := [k] } else some { req with Nodes := [] }

/-! ## Facts about the identity model and the buckets -/

theorem sharedFrom_le (a b : Nat) : ∀ n, sharedFrom a b n ≤ n
  | 0 => Nat.le_refl 0
  | n + 1 => by
    unfold sharedFrom
    split
    · exact Nat.succ_le_succ (sharedFrom_le a b n)
    · exact Nat.zero_le _

theorem sharedFrom_self (a : Nat) : ∀ n, sharedFrom a a n = n
  | 0 => rfl
  | n + 1 => by
    unfold sharedFrom
    rw [if_pos rfl, sharedFrom_self a n]

theorem sharedFrom_full (a b : Nat) :
    ∀ n, sharedFrom a b n = n → ∀ i, i < n → a.testBit i = b.testBit i
  | 0 => fun _ i hi => absurd hi (Nat.not_lt_zero i)
  | n + 1 => by
    intro h i hi
    unfold sharedFrom at h
    split at h
    · rename_i hbit
      rcases Nat.lt_succ_iff_lt_or_eq.mp hi with hlt | heq
      · exact sharedFrom_full a b n (Nat.succ_injective h) i hlt
      · rw [heq]; exact hbit
    · exact absurd h.symm (Nat.succ_ne_zero n)

theorem SharedPrefixLen_le (a b : Key) : a.SharedPrefixLen b ≤ 160 :=
  sharedFrom_le a.val b.val 160

theorem SharedPrefixLen_self (a : Key) : a.SharedPrefixLen a = 160 :=
  sharedFrom_self a.val 160

theorem SharedPrefixLen_eq_full {a b : Key} (h : a.SharedPrefixLen b = 160) : a = b := by
  apply Fin.ext
  apply Nat.eq_of_testBit_eq
  intro i
  by_cases hi : i < 160
  · exact sharedFrom_full a.val b.val 160 h i hi
  · have hpow : 2 ^ 160 ≤ 2 ^ i := Nat.pow_le_pow_right (by decide) (Nat.le_of_not_lt hi)
    rw [Nat.testBit_lt_two_pow (Nat.lt_of_lt_of_le a.isLt hpow),
      Nat.testBit_lt_two_pow (Nat.lt_of_lt_of_le b.isLt hpow)]

theorem bucketIndex_of_le {p : Nat} (hp : p ≤ 160) :
    bucketIndex p = if p = 0 then 159 else 160 - p := by
  unfold bucketIndex Distance_Buckets
  have h1 : p % 2 ^ 32 = p := Nat.mod_eq_of_lt (by omega)
  have h2 : (160 + 2 ^ 32 - p) % 2 ^ 32 = 160 - p := by omega
  simp only [h1, h2]
  split <;> split <;> omega

theorem bucketIndex_lt {p : Nat} (hp : p ≤ 160) : bucketIndex p < 160 := by
  rw [bucketIndex_of_le hp]; split <;> omega

theorem bucketIndex_distance_lt (a b : NodeId) :
    bucketIndex (a.DistanceTo b) < 160 :=
  bucketIndex_lt (SharedPrefixLen_le a.Key b.Key)

theorem indexOfKey_isSome (k : Key) :
    ∀ l : List NodeId, (indexOfKey k l).isSome = true ↔ ∃ x ∈ l, x.Key = k
  | [] => by simp [indexOfKey]
  | y :: ys => by
    unfold indexOfKey
    by_cases h : y.Key = k
    · simp [h]
    · simp [h, indexOfKey_isSome k ys]

theorem indexOfKey_get (k : Key) :
    ∀ (l : List NodeId) (i : Nat), indexOfKey k l = some i →
      ∃ x, l[i]? = some x ∧ x.Key = k
  | [], i => by simp [indexOfKey]
  | y :: ys, i => by
    unfold indexOfKey
    by_cases h : y.Key = k
    · simp only [h, if_true, Option.some.injEq]
      intro hi
      subst hi
      exact ⟨y, by simp, h⟩
    · simp only [h, if_false, Option.map_eq_some']
      rintro ⟨j, hj, rfl⟩
      obtain ⟨x, hx, hk⟩ := indexOfKey_get k ys j hj
      exact ⟨x, by simpa using hx, hk⟩

theorem Bucket.Has_true_iff (b : Bucket) (id : NodeId) :
    (b.Has id).1 = true ↔ ∃ x ∈ b.nodes, x.Key = id.Key := by
  rw [← indexOfKey_isSome]
  unfold Bucket.Has
  cases indexOfKey id.Key b.nodes <;> simp

theorem Bucket.Has_get (b : Bucket) (id : NodeId) (i : Nat)
    (h : b.Has id = (true, i)) : ∃ x, b.Get i = some x ∧ x.Key = id.Key := by
  unfold Bucket.Has at h
  cases hk : indexOfKey id.Key b.nodes with
  | none => rw [hk] at h; simp at h
  | some j =>
    rw [hk] at h
    simp only [Prod.mk.injEq, true_and] at h
    subst h
    exact indexOfKey_get id.Key b.nodes j hk

theorem Bucket.Add_nodes_mem (b : Bucket) (c x : NodeId) (hx : x ∈ (b.Add c).nodes) :
    x ∈ b.nodes ∨ x = c := by
  unfold Bucket.Add at hx
  split at hx
  · rename_i old hold
    simp only [List.mem_append, List.mem_filter, List.mem_singleton] at hx
    rcases hx with h | h
    · exact Or.inl h.1
    · exact Or.inl (h ▸ List.mem_of_find?_eq_some hold)
  · simpa using hx

theorem Bucket.Add_has (b : Bucket) (c : NodeId) : ((b.Add c).Has c).1 = true := by
  rw [Bucket.Has_true_iff]
  unfold Bucket.Add
  split
  · rename_i old hold
    refine ⟨old, by simp, ?_⟩
    simpa using List.find?_some hold
  · exact ⟨c, by simp, rfl⟩

theorem Bucket.Add_not_empty (b : Bucket) (c : NodeId) : (b.Add c).IsEmpty = false := by
  unfold Bucket.Add Bucket.IsEmpty
  split <;> simp

/-! ## Facts about the loops of the routing table -/

theorem closestLoop_spec (bs : List Bucket) :
    ∀ i, i < bs.length → ∃ j b, j ≤ i ∧ bs[j]? = some b ∧
      RoutingTable.closestLoop bs i = some b ∧
      (∀ k b', j < k → k ≤ i → bs[k]? = some b' → b'.IsEmpty = true) ∧
      (b.IsEmpty = false ∨ j = 0)
  | 0 => fun h =>
    ⟨0, bs[0], Nat.le_refl 0, List.getElem?_eq_getElem h,
      by simp [RoutingTable.closestLoop, List.getElem?_eq_getElem h],
      fun k _ h1 h2 => absurd (Nat.lt_of_lt_of_le h1 h2) (Nat.lt_irrefl 0), Or.inr rfl⟩
  | i + 1 => fun h => by
    have hget : bs[i + 1]? = some bs[i + 1] := List.getElem?_eq_getElem h
    by_cases he : (bs[i + 1]).IsEmpty = true
    · obtain ⟨j, b, hji, hb, hloop, hall, hne⟩ :=
        closestLoop_spec bs i (Nat.lt_of_succ_lt h)
      refine ⟨j, b, Nat.le_succ_of_le hji, hb, ?_, ?_, hne⟩
      · unfold RoutingTable.closestLoop
        simp only [hget, he, if_true]
        exact hloop
      · intro k b' hjk hk hb'
        rcases Nat.lt_or_ge k (i + 1) with hlt | hge
        · exact hall k b' hjk (Nat.le_of_lt_succ hlt) hb'
        · have hki : k = i + 1 := Nat.le_antisymm hk hge
          subst hki
          rw [hget] at hb'
          exact Option.some.inj hb' ▸ he
    · refine ⟨i + 1, bs[i + 1], Nat.le_refl _, hget, ?_, ?_, Or.inl (by simpa using he)⟩
      · unfold RoutingTable.closestLoop
        simp only [hget, he]
        rfl
      · intro k _ h1 h2
        exact absurd (Nat.lt_of_lt_of_le h1 h2) (Nat.lt_irrefl _)

theorem closestLoop_of_not_empty (bs : List Bucket) (i : Nat) (b : Bucket)
    (hb : bs[i]? = some b) (hne : b.IsEmpty = false) :
    RoutingTable.closestLoop bs i = some b := by
  cases i with
  | zero => exact hb
  | succ i =>
    unfold RoutingTable.closestLoop
    simp [hb, hne]

theorem RoutingTable.buckets_get (rt : RoutingTable) {i : Nat} (hi : i < 160) :
    ∃ b, rt.buckets[i]? = some b := by
  have h : i < rt.buckets.length := by rw [rt.hlen]; exact hi
  exact ⟨rt.buckets[i], List.getElem?_eq_getElem h⟩

theorem RoutingTable.Add_eq (rt : RoutingTable) (c : NodeId) :
    ∃ rt1 b, rt.Add c = some (rt1, bucketIndex (rt.currentNode.DistanceTo c)) ∧
      rt.buckets[bucketIndex (rt.currentNode.DistanceTo c)]? = some b ∧
      rt1.currentNode = rt.currentNode ∧
      rt1.buckets = rt.buckets.set (bucketIndex (rt.currentNode.DistanceTo c)) (b.Add c) := by
  obtain ⟨b, hb⟩ := rt.buckets_get (bucketIndex_distance_lt rt.currentNode c)
  refine ⟨{ rt with
            buckets := rt.buckets.set (bucketIndex (rt.currentNode.DistanceTo c)) (b.Add c)
            hlen := by rw [List.length_set]; exact rt.hlen }, b, ?_, hb, rfl, rfl⟩
  unfold RoutingTable.Add
  simp only [hb]

/-! ## Claims on the routing table -/

/-- C1: after `rt.Add(c)` for a contact `c` whose key differs from the local
key and that is in no bucket of `rt`, `Add` returns, and the bucket returned by
`FindClosestBucket(&c)` on the new table has `c`. -/
theorem C1_add_then_find_closest (rt : RoutingTable) (c : NodeId)
    (_hself : c.Key ≠ rt.currentNode.Key)
    (_habsent : ∀ b ∈ rt.buckets, (b.Has c).1 = false) :
    ∃ rt1 i b, rt.Add c = some (rt1, i) ∧ rt1.FindClosestBucket c = some b ∧
      (b.Has c).1 = true := by
  obtain ⟨rt1, b0, hadd, hb0, hcur, hbs⟩ := rt.Add_eq c
  refine ⟨rt1, _, b0.Add c, hadd, ?_, Bucket.Add_has b0 c⟩
  unfold RoutingTable.FindClosestBucket
  rw [hcur, hbs]
  apply closestLoop_of_not_empty _ _ _ _ (Bucket.Add_not_empty b0 c)
  have hlt : bucketIndex (rt.currentNode.DistanceTo c) < rt.buckets.length := by
    rw [rt.hlen]; exact bucketIndex_distance_lt rt.currentNode c
  simp [hlt]

/-- Witness of C1: the contact `idB` added to the fresh table of `idA`. -/
theorem C1_add_then_find_closest_witness :
    ∃ rt1 i b, tableA.Add idB = some (rt1, i) ∧ rt1.FindClosestBucket idB = some b ∧
      (b.Has idB).1 = true :=
  C1_add_then_find_closest tableA idB (by decide) (by
    intro b hb
    rcases List.mem_or_eq_of_mem_set hb with h | h
    · rw [List.eq_of_mem_replicate h]; rfl
    · rw [h]; decide)

/-- C2: for every shared-prefix length `p` with `0 <= p <= 160`,
`bucketIndex(p)` lies in `[0, 159]`, so `rt.buckets[bucketIndex(p)]` is in
range for every routing table; and `bucketIndex(160) = 0`. -/
theorem C2_bucketIndex_in_range (p : Nat) (hp : p ≤ Distance_Buckets) :
    bucketIndex p ≤ Distance_Buckets - 1 ∧
      (∀ rt : RoutingTable, ∃ b, rt.buckets[bucketIndex p]? = some b) ∧
      bucketIndex Distance_Buckets = 0 := by
  have h : bucketIndex p < 160 := bucketIndex_lt hp
  exact ⟨Nat.le_pred_of_lt h, fun rt => rt.buckets_get h, by decide⟩

/-- Witness of C2 at the shared-prefix length 0 (no shared bit). -/
theorem C2_bucketIndex_in_range_witness :
    bucketIndex 0 ≤ Distance_Buckets - 1 ∧
      (∀ rt : RoutingTable, ∃ b, rt.buckets[bucketIndex 0]? = some b) ∧
      bucketIndex Distance_Buckets = 0 :=
  C2_bucketIndex_in_range 0 (by decide)

/-- C3: `FindClosestBucket(id)` returns `rt.buckets[j]` for an index `j` not
above the ideal index `i = bucketIndex(sharedPrefixLength(self, id))`; every
bucket with an index in `(j, i]` is empty, and bucket `j` is not empty or
`j = 0`. `FindClosestBucketById` does the same for a raw key. -/
theorem C3_find_closest_bucket (rt : RoutingTable) (id : NodeId) :
    (∃ j b, j ≤ bucketIndex (rt.currentNode.Key.SharedPrefixLen id.Key) ∧
      rt.buckets[j]? = some b ∧ rt.FindClosestBucket id = some b ∧
      (∀ k b', j < k → k ≤ bucketIndex (rt.currentNode.Key.SharedPrefixLen id.Key) →
        rt.buckets[k]? = some b' → b'.IsEmpty = true) ∧
      (b.IsEmpty = false ∨ j = 0)) ∧
    (∃ j b, j ≤ bucketIndex (rt.currentNode.Key.SharedPrefixLen id.Key) ∧
      rt.buckets[j]? = some b ∧ rt.FindClosestBucketById id.Key = some b ∧
      (∀ k b', j < k → k ≤ bucketIndex (rt.currentNode.Key.SharedPrefixLen id.Key) →
        rt.buckets[k]? = some b' → b'.IsEmpty = true) ∧
      (b.IsEmpty = false ∨ j = 0)) := by
  have hlt : bucketIndex (rt.currentNode.Key.SharedPrefixLen id.Key) < rt.buckets.length := by
    rw [rt.hlen]; exact bucketIndex_lt (SharedPrefixLen_le _ _)
  exact ⟨closestLoop_spec rt.buckets _ hlt, closestLoop_spec rt.buckets _ hlt⟩

theorem newTable_get_zero (id : NodeId) :
    ((List.replicate Distance_Buckets (⟨[]⟩ : Bucket)).set 0 ⟨[id]⟩)[0]? = some ⟨[id]⟩ :=
  List.getElem?_set_self (by rw [List.length_replicate]; decide)

theorem newTable_get_succ (id : NodeId) {k : Nat} (h1 : 1 ≤ k) (h2 : k < Distance_Buckets) :
    ((List.replicate Distance_Buckets (⟨[]⟩ : Bucket)).set 0 ⟨[id]⟩)[k]? = some ⟨[]⟩ := by
  rw [List.getElem?_set_ne (by omega), List.getElem?_replicate, if_pos h2]

theorem NewRoutingTable_eq (id : NodeId) :
    ∃ rt, NewRoutingTable id = some rt ∧ rt.currentNode = id ∧
      rt.buckets = (List.replicate Distance_Buckets ⟨[]⟩).set 0 ⟨[id]⟩ := by
  obtain ⟨rt1, b, hadd, hb, hcur, hbs⟩ := (RoutingTable.literal id).Add_eq id
  have hidx : bucketIndex ((RoutingTable.literal id).currentNode.DistanceTo id) = 0 := by
    show bucketIndex (id.Key.SharedPrefixLen id.Key) = 0
    rw [SharedPrefixLen_self]; decide
  rw [hidx] at hadd hb hbs
  have hb0 : b = ⟨[]⟩ := by
    have : (RoutingTable.literal id).buckets[0]? = some ⟨[]⟩ := by
      show (List.replicate Distance_Buckets (⟨[]⟩ : Bucket))[0]? = some ⟨[]⟩
      rw [List.getElem?_replicate, if_pos (by decide)]
    rw [this] at hb
    exact (Option.some.inj hb).symm
  subst hb0
  refine ⟨rt1, ?_, hcur, hbs⟩
  unfold NewRoutingTable
  simp only [hadd, Option.map_some']

theorem lastNotEmptyLoop_all_empty (bs : List Bucket) :
    ∀ i, i < bs.length →
      (∀ k b, 1 ≤ k → k ≤ i → bs[k]? = some b → b.IsEmpty = true) →
      RoutingTable.lastNotEmptyLoop bs i = bs[bs.length - 1]?
  | 0 => fun _ _ => rfl
  | i + 1 => fun h hall => by
    have hget : bs[i + 1]? = some bs[i + 1] := List.getElem?_eq_getElem h
    have he : (bs[i + 1]).IsEmpty = true :=
      hall (i + 1) _ (Nat.succ_le_succ (Nat.zero_le i)) (Nat.le_refl _) hget
    unfold RoutingTable.lastNotEmptyLoop
    simp only [hget, he, Bool.not_true, Bool.false_eq_true, if_false]
    exact lastNotEmptyLoop_all_empty bs i (Nat.lt_of_succ_lt h)
      (fun k b h1 h2 hb => hall k b h1 (Nat.le_succ_of_le h2) hb)

set_option maxRecDepth 100000 in
/-- C8 (as the claim states it, refuted): the index 160 is outside `[0, 159]`
and `IsNodeIdInBucket(idA, 160)` on the fresh table of `idA` does not panic: it
answers for bucket 159. -/
theorem C8_index_160_does_not_panic :
    ¬ (tableA.IsNodeIdInBucket idA 160 = none ↔ ((160 : Int) < 0 ∨ (160 : Int) > 159)) ∧
      tableA.IsNodeIdInBucket idA 160 = some false := by
  decide

/-- C8 (amended): `IsNodeIdInBucket(id, index)` panics exactly when `index` is
outside `[0, 160]`; for an index in `[0, 159]` it returns whether
`rt.buckets[index]` has `id`, and for the index 160 whether `rt.buckets[159]`
has `id`. -/
theorem C8_IsNodeIdInBucket (rt : RoutingTable) (id : NodeId) (index : Int) :
    (rt.IsNodeIdInBucket id index = none ↔ (index < 0 ∨ index > 160)) ∧
      ((0 ≤ index ∧ index ≤ 159) → ∃ b, rt.buckets[index.toNat]? = some b ∧
        rt.IsNodeIdInBucket id index = some (b.Has id).1) ∧
      (index = 160 → ∃ b, rt.buckets[159]? = some b ∧
        rt.IsNodeIdInBucket id index = some (b.Has id).1) := by
  have hin : ∀ j : Nat, j < 160 → ∃ b, rt.buckets[j]? = some b :=
    fun j hj => rt.buckets_get hj
  refine ⟨?_, ?_, ?_⟩
  · constructor
    · intro h
      by_contra hc
      have h0 : 0 ≤ index := by omega
      have h1 : index ≤ 160 := by omega
      unfold RoutingTable.IsNodeIdInBucket Distance_Buckets at h
      rw [if_neg (by push_cast; omega)] at h
      by_cases h160 : index = 160
      · obtain ⟨b, hb⟩ := hin 159 (by omega)
        subst h160
        simp [hb] at h
      · obtain ⟨b, hb⟩ := hin index.toNat (by omega)
        simp [h160, hb] at h
    · intro h
      unfold RoutingTable.IsNodeIdInBucket Distance_Buckets
      rw [if_pos (by push_cast; omega)]
  · rintro ⟨h0, h1⟩
    obtain ⟨b, hb⟩ := hin index.toNat (by omega)
    refine ⟨b, hb, ?_⟩
    unfold RoutingTable.IsNodeIdInBucket Distance_Buckets
    rw [if_neg (by push_cast; omega)]
    have h160 : index ≠ 160 := by omega
    simp [h160, hb]
  · intro h160
    subst h160
    obtain ⟨b, hb⟩ := hin 159 (by omega)
    refine ⟨b, hb, ?_⟩
    unfold RoutingTable.IsNodeIdInBucket Distance_Buckets
    simp [hb]

/-- C9 (the code at the failing input): for every `id` the table of
`NewRoutingTable(id)` holds `id` in bucket 0, yet `LastNotEmptyBucket` returns
the empty bucket 159: its loop stops before index 0. -/
theorem C9_LastNotEmptyBucket_of_new_table (id : NodeId) :
    ∃ rt, NewRoutingTable id = some rt ∧ rt.buckets[0]? = some ⟨[id]⟩ ∧
      rt.LastNotEmptyBucket = some ⟨[]⟩ ∧ rt.buckets[159]? = some ⟨[]⟩ := by
  obtain ⟨rt, hnew, _, hbs⟩ := NewRoutingTable_eq id
  have h159 : rt.buckets[159]? = some ⟨[]⟩ := by
    rw [hbs]; exact newTable_get_succ id (by decide) (by decide)
  refine ⟨rt, hnew, by rw [hbs]; exact newTable_get_zero id, ?_, h159⟩
  unfold RoutingTable.LastNotEmptyBucket
  rw [lastNotEmptyLoop_all_empty rt.buckets (Distance_Buckets - 1)
    (by rw [rt.hlen]; decide)]
  · rw [rt.hlen]; exact h159
  · intro k b hk1 hk2 hb
    rw [hbs, newTable_get_succ id hk1 (by unfold Distance_Buckets at *; omega)] at hb
    rw [← Option.some.inj hb]; rfl

theorem Reachable.slots {self : NodeId} {rt : RoutingTable} (h : Reachable self rt) :
    rt.currentNode = self ∧ ∀ i b c, rt.buckets[i]? = some b → c ∈ b.nodes →
      bucketIndex (self.Key.SharedPrefixLen c.Key) = i := by
  induction h with
  | init hnew =>
    obtain ⟨rt0, h0, hcur, hbs⟩ := NewRoutingTable_eq self
    rw [h0] at hnew
    cases Option.some.inj hnew
    refine ⟨hcur, ?_⟩
    intro i b c hb hc
    rw [hbs] at hb
    by_cases hi : i = 0
    · subst hi
      rw [newTable_get_zero] at hb
      rw [← Option.some.inj hb] at hc
      rw [List.mem_singleton.mp hc, SharedPrefixLen_self]
      decide
    · have hlt : i < Distance_Buckets := by
        have := (List.getElem?_eq_some.mp hb).1
        rwa [List.length_set, List.length_replicate] at this
      rw [newTable_get_succ self (by omega) hlt] at hb
      rw [← Option.some.inj hb] at hc
      exact absurd hc (List.not_mem_nil c)
  | @add rt rt1 c0 i0 _ hadd ih =>
    obtain ⟨hcur, hslot⟩ := ih
    obtain ⟨rt2, b0, hadd2, hb0, hcur2, hbs2⟩ := rt.Add_eq c0
    rw [hadd2] at hadd
    cases (Prod.mk.inj (Option.some.inj hadd)).1
    refine ⟨hcur2.trans hcur, ?_⟩
    intro i b c hb hc
    rw [hbs2] at hb
    by_cases hi : bucketIndex (rt.currentNode.DistanceTo c0) = i
    · have hlt : bucketIndex (rt.currentNode.DistanceTo c0) < rt.buckets.length :=
        (List.getElem?_eq_some.mp hb0).1
      rw [← hi, List.getElem?_set_self hlt] at hb
      rw [← Option.some.inj hb] at hc
      rcases Bucket.Add_nodes_mem b0 c0 c hc with hmem | heq
      · rw [← hi]
        exact hslot _ b0 c hb0 hmem
      · rw [heq, ← hi, hcur]
        rfl
    · rw [List.getElem?_set_ne hi] at hb
      exact hslot i b c hb hc

/-- C10: in every routing table reachable from `NewRoutingTable(self)` by
calls of `RoutingTable.Add`, every contact `c` stored in `rt.buckets[i]` has
`bucketIndex(sharedPrefixLength(self, c)) = i`; hence contacts with the same
key are never stored in two different buckets. -/
theorem C10_slot_invariant (self : NodeId) (rt : RoutingTable) (h : Reachable self rt) :
    (∀ i b c, rt.buckets[i]? = some b → c ∈ b.nodes →
      bucketIndex (self.Key.SharedPrefixLen c.Key) = i) ∧
    (∀ (i j : Nat) (b1 b2 : Bucket) (c1 c2 : NodeId), rt.buckets[i]? = some b1 → rt.buckets[j]? = some b2 →
      c1 ∈ b1.nodes → c2 ∈ b2.nodes → c1.Key = c2.Key → i = j) := by
  refine ⟨h.slots.2, ?_⟩
  intro i j b1 b2 c1 c2 h1 h2 hc1 hc2 hk
  rw [← h.slots.2 i b1 c1 h1 hc1, ← h.slots.2 j b2 c2 h2 hc2, hk]

set_option maxRecDepth 100000 in
/-- Witness of C10: the table of `idA` after `NewRoutingTable(idA)` and
`Add(idB)`. -/
theorem C10_slot_invariant_witness :
    (∀ i b c, tableAB.buckets[i]? = some b → c ∈ b.nodes →
      bucketIndex (idA.Key.SharedPrefixLen c.Key) = i) ∧
    (∀ (i j : Nat) (b1 b2 : Bucket) (c1 c2 : NodeId), tableAB.buckets[i]? = some b1 → tableAB.buckets[j]? = some b2 →
      c1 ∈ b1.nodes → c2 ∈ b2.nodes → c1.Key = c2.Key → i = j) :=
  C10_slot_invariant idA tableAB
    (Reachable.add (Reachable.init (rfl : NewRoutingTable idA = some tableA))
      (rfl : tableA.Add idB = some (tableAB, 1)))

/-! ## Claims on the node -/

theorem Bucket.Has_eq_of_true {b : Bucket} {id : NodeId} (h : (b.Has id).1 = true) :
    ∃ i x, b.Has id = (true, i) ∧ b.Get i = some x ∧ x.Key = id.Key ∧ x ∈ b.nodes := by
  rcases hp : b.Has id with ⟨f, i⟩
  rw [hp] at h
  cases h
  obtain ⟨x, hx, hk⟩ := Bucket.Has_get b id i hp
  exact ⟨i, x, rfl, hx, hk, List.getElem?_mem hx⟩

theorem Bucket.Has_eq_of_false {b : Bucket} {id : NodeId} (h : (b.Has id).1 = false) :
    b.Has id = (false, 0) := by
  unfold Bucket.Has at h ⊢
  cases hk : indexOfKey id.Key b.nodes with
  | none => rfl
  | some j => rw [hk] at h; cases h

theorem Bucket.Add_has_of_has (b : Bucket) (c x : NodeId) (h : (b.Has x).1 = true) :
    ((b.Add c).Has x).1 = true := by
  rw [Bucket.Has_true_iff] at h ⊢
  obtain ⟨y, hy, hk⟩ := h
  unfold Bucket.Add
  split
  · rename_i old hold
    by_cases hc : y.Key = c.Key
    · refine ⟨old, by simp, ?_⟩
      have : old.Key = c.Key := by simpa using List.find?_some hold
      rw [this, ← hc, hk]
    · exact ⟨y, by simp [hy, hc], hk⟩
  · exact ⟨y, by simp [hy], hk⟩

theorem Reachable.has_self {self : NodeId} {rt : RoutingTable} (h : Reachable self rt) :
    ∃ b, rt.buckets[0]? = some b ∧ (b.Has self).1 = true := by
  induction h with
  | init hnew =>
    obtain ⟨rt0, h0, _, hbs⟩ := NewRoutingTable_eq self
    rw [h0] at hnew
    cases Option.some.inj hnew
    refine ⟨⟨[self]⟩, by rw [hbs]; exact newTable_get_zero self, ?_⟩
    rw [Bucket.Has_true_iff]
    exact ⟨self, by simp, rfl⟩
  | @add rt rt1 c0 i0 _ hadd ih =>
    obtain ⟨b, hb, hhas⟩ := ih
    obtain ⟨rt2, b0, hadd2, hb0, _, hbs2⟩ := rt.Add_eq c0
    rw [hadd2] at hadd
    cases (Prod.mk.inj (Option.some.inj hadd)).1
    by_cases hi : bucketIndex (rt.currentNode.DistanceTo c0) = 0
    · rw [hi] at hb0 hbs2
      rw [hb] at hb0
      cases Option.some.inj hb0
      refine ⟨b.Add c0, ?_, Bucket.Add_has_of_has b c0 self hhas⟩
      rw [hbs2]
      exact List.getElem?_set_self (List.getElem?_eq_some.mp hb).1
    · exact ⟨b, by rw [hbs2, List.getElem?_set_ne hi]; exact hb, hhas⟩

set_option maxRecDepth 100000 in
/-- C4 (as the claim states it, refuted): the fresh node `idA` asked for a
`NodeId` with its own key and another address returns its own contact with a
nil error, not the error "Can't search for self". -/
theorem C4_same_key_other_address :
    NewNodeWithId idA = some nodeA ∧ idA2.Key = nodeA.NodeId.Key ∧
      ∀ (net : Net) (fuel : Nat), ∃ r, nodeA.FindNode net fuel idA2 = .returned r ∧
        r.found = some idA ∧ r.err = none :=
  ⟨rfl, rfl, fun _ _ => ⟨_, rfl, rfl, rfl⟩⟩

/-- C4 (amended): `FindNode(target)` for a target equal to the `NodeId` of the
node (key and address) returns no result and the error "Can't search for
self", without a request and without a change of the table. For a target that
has the key of the node and another address, on a node whose table is
reachable from `NewRoutingTable`, it returns with a nil error the contact
stored under that key in bucket 0, again without a request and without a
change of the table. -/
theorem C4_FindNode_own_key (net : Net) (fuel : Nat) (n : Node) (target : NodeId)
    (hkey : target.Key = n.NodeId.Key) :
    (target = n.NodeId → n.FindNode net fuel target =
      .returned ⟨none, some "Can't search for self", [], n.RoutingTable⟩) ∧
    (target ≠ n.NodeId → Reachable n.NodeId n.RoutingTable →
      ∃ x b, n.FindNode net fuel target = .returned ⟨some x, none, [], n.RoutingTable⟩ ∧
        x.Key = target.Key ∧ n.RoutingTable.buckets[0]? = some b ∧ x ∈ b.nodes) := by
  constructor
  · intro heq
    unfold Node.FindNode
    rw [if_pos heq.symm]
  · intro hne hreach
    obtain ⟨b, hb, hhas⟩ := hreach.has_self
    have hcur : n.RoutingTable.currentNode = n.NodeId := hreach.slots.1
    have hhas2 : (b.Has target).1 = true := by
      rw [Bucket.Has_true_iff] at hhas ⊢
      rw [hkey]; exact hhas
    obtain ⟨i, x, hHas, hget, hxk, hxb⟩ := Bucket.Has_eq_of_true hhas2
    have hfind : n.RoutingTable.FindClosestBucket target = some b := by
      unfold RoutingTable.FindClosestBucket NodeId.DistanceTo
      rw [hcur, ← hkey, SharedPrefixLen_self]
      exact hb
    refine ⟨x, b, ?_, hxk, hb, hxb⟩
    unfold Node.FindNode
    rw [if_neg (fun h => hne h.symm)]
    simp only [hfind, hHas, hget]

set_option maxRecDepth 100000 in
/-- Witness of C4 (amended): the fresh node `idA` asked for `idA`, and asked
for `idA2`. -/
theorem C4_FindNode_own_key_witness :
    nodeA.FindNode netDown 0 idA =
      .returned ⟨none, some "Can't search for self", [], nodeA.RoutingTable⟩ ∧
    ∃ x b, nodeA.FindNode netDown 0 idA2 = .returned ⟨some x, none, [], nodeA.RoutingTable⟩ ∧
      x.Key = idA2.Key ∧ nodeA.RoutingTable.buckets[0]? = some b ∧ x ∈ b.nodes :=
  ⟨(C4_FindNode_own_key netDown 0 nodeA idA rfl).1 rfl,
    (C4_FindNode_own_key netDown 0 nodeA idA2 rfl).2 (by decide)
      (Reachable.init (rfl : NewRoutingTable idA = some tableA))⟩

/-- C5: an inbound message whose `TO` is not the key of the node gets no
response, and the routing table of the node is the one it had. -/
theorem C5_message_for_another_node (n : Node) (msg : Message)
    (h : msg.TO ≠ n.NodeId.Key) :
    n.handleConnection msg = some (none, n.RoutingTable) := by
  unfold Node.handleConnection
  rw [if_pos h]

/-- Witness of C5: a PING for the key of `idB` received by the node `idA`. -/
theorem C5_message_for_another_node_witness :
    nodeA.handleConnection pingToB = some (none, nodeA.RoutingTable) :=
  C5_message_for_another_node nodeA pingToB (by decide)

/-! ## The remote search -/

theorem Message.Has_found {m : Message} {id : NodeId} (h : (m.Has id).1 = true) :
    ∃ i x, m.Has id = (true, i) ∧ m.Nodes[i]? = some x ∧ x.Key = id.Key ∧ x ∈ m.Nodes := by
  unfold Message.Has at h ⊢
  cases hk : indexOfKey id.Key m.Nodes with
  | none => rw [hk] at h; cases h
  | some j =>
    obtain ⟨x, hx, hxk⟩ := indexOfKey_get id.Key m.Nodes j hk
    exact ⟨j, x, rfl, hx, hxk, List.getElem?_mem hx⟩

theorem Message.Has_of_no_nodes {m : Message} (id : NodeId) (h : m.Nodes = []) :
    m.Has id = (false, 0) := by
  unfold Message.Has
  rw [h]
  rfl

theorem Bucket.Has_singleton_ne {c id : NodeId} (h : c.Key ≠ id.Key) :
    (⟨[c]⟩ : Bucket).Has id = (false, 0) := by
  simp [Bucket.Has, indexOfKey, h]

theorem findNodeRemote_succ (net : Net) (self s : NodeId) (fuel : Nat) (bucket : Bucket)
    (h : (bucket.Has self).1 = false) :
    findNodeRemote net self s (fuel + 1) bucket =
      queryLoop net self s (findNodeRemote net self s fuel) bucket.nodes := by
  unfold findNodeRemote
  rw [Bucket.Has_eq_of_false h]

theorem findNodeRemote_self (net : Net) (self s : NodeId) (fuel : Nat) (bucket : Bucket)
    (h : (bucket.Has self).1 = true) :
    ∃ x, findNodeRemote net self s (fuel + 1) bucket =
      .returned ⟨some x, some "Can't search for self", []⟩ := by
  obtain ⟨i, x, hHas, hget, _, _⟩ := Bucket.Has_eq_of_true h
  refine ⟨x, ?_⟩
  unfold findNodeRemote
  simp only [hHas, hget]

theorem queryLoop_no_contacts (net : Net) (self s : NodeId)
    (recurse : Bucket → Outcome RemoteResult)
    (hnet : ∀ c req, ∃ m, net c req = some m ∧ m.Nodes = []) :
    ∀ l : List NodeId, queryLoop net self s recurse l =
      .returned ⟨none, some "Node not found or not in the network",
        l.map (fun c => (c, findNodeRequest self c s))⟩
  | [] => rfl
  | c :: rest => by
    obtain ⟨m, hm, hnodes⟩ := hnet c (findNodeRequest self c s)
    unfold queryLoop
    simp only [hm, Message.Has_of_no_nodes s hnodes, hnodes, List.length_nil, ne_eq,
      not_true_eq_false, if_false, queryLoop_no_contacts net self s recurse hnet rest]
    rfl

theorem closestLoop_walk (bs : List Bucket) (j : Nat) (b : Bucket)
    (hb : bs[j]? = some b) (hne : b.IsEmpty = false) :
    ∀ i, j ≤ i → i < bs.length →
      (∀ k b', j < k → k ≤ i → bs[k]? = some b' → b'.IsEmpty = true) →
      RoutingTable.closestLoop bs i = some b
  | 0 => fun hj _ _ => by
    rw [Nat.le_zero.mp hj] at hb
    exact closestLoop_of_not_empty bs 0 b hb hne
  | i + 1 => fun hj hi hall => by
    by_cases hji : j = i + 1
    · rw [hji] at hb
      exact closestLoop_of_not_empty bs (i + 1) b hb hne
    · have hget : bs[i + 1]? = some bs[i + 1] := List.getElem?_eq_getElem hi
      have he : (bs[i + 1]).IsEmpty = true :=
        hall (i + 1) _ (by omega) (Nat.le_refl _) hget
      unfold RoutingTable.closestLoop
      simp only [hget, he, if_true]
      exact closestLoop_walk bs j b hb hne i (by omega) (Nat.lt_of_succ_lt hi)
        (fun k b' h1 h2 hb' => hall k b' h1 (Nat.le_succ_of_le h2) hb')

theorem bucketIndex_pos_of_ne {a b : Key} (h : a ≠ b) :
    0 < bucketIndex (a.SharedPrefixLen b) := by
  have hle := SharedPrefixLen_le a b
  have hne : a.SharedPrefixLen b ≠ 160 := fun h160 => h (SharedPrefixLen_eq_full h160)
  rw [bucketIndex_of_le hle]
  split <;> omega

theorem FindClosestBucket_some (rt : RoutingTable) (id : NodeId) :
    ∃ b, rt.FindClosestBucket id = some b ∧ b ∈ rt.buckets := by
  have hlt : bucketIndex (rt.currentNode.DistanceTo id) < rt.buckets.length := by
    rw [rt.hlen]; exact bucketIndex_distance_lt _ _
  obtain ⟨j, b, _, hb, hloop, _, _⟩ := closestLoop_spec rt.buckets _ hlt
  exact ⟨b, hloop, List.getElem?_mem hb⟩

theorem findNodeRemote_cycle (self s c : NodeId) (hcs : c.Key ≠ s.Key)
    (hc : c.Key ≠ self.Key) :
    ∀ fuel, findNodeRemote (netKnows c) self s fuel ⟨[c]⟩ = .outOfFuel
  | 0 => rfl
  | fuel + 1 => by
    rw [findNodeRemote_succ _ _ _ _ _ (by rw [Bucket.Has_singleton_ne hc])]
    have hHas : ({ findNodeRequest self c s with Nodes := [c] } : Message).Has s
        = (false, 0) := by
      simp [Message.Has, indexOfKey, hcs]
    unfold queryLoop
    simp only [netKnows, hHas, List.length_singleton, ne_eq, one_ne_zero, not_false_eq_true,
      if_true, NewBucket]
    rw [findNodeRemote_cycle self s c hcs hc fuel]
    rfl

set_option maxRecDepth 100000 in
/-- C7 (as the claim states it, refuted), two inputs. The fresh node `idA`
searching `idB` while every reply is empty returns the error "Can't search for
self". The node `idA` that knows `idB`, searching `idK` while every reply is
the non-empty list `[idB]` without `idK`, does not return: `FindNode` uses up
every amount of fuel. -/
theorem C7_self_error_and_endless_search :
    ((∀ c req, ∃ m, netSilent c req = some m ∧ m.Nodes = []) ∧
      idB.Key ≠ nodeA.NodeId.Key ∧
      (∀ b ∈ nodeA.RoutingTable.buckets, (b.Has idB).1 = false) ∧
      ∃ r, nodeA.FindNode netSilent 1 idB = .returned r ∧
        r.err = some "Can't search for self") ∧
    ((∀ c req, ∃ m, netKnows idB c req = some m ∧ (m.Has idK).1 = false) ∧
      idK.Key ≠ nodeAB.NodeId.Key ∧
      (∀ b ∈ nodeAB.RoutingTable.buckets, (b.Has idK).1 = false) ∧
      ∀ fuel, nodeAB.FindNode (netKnows idB) fuel idK = .outOfFuel) := by
  refine ⟨⟨fun c req => ⟨_, rfl, rfl⟩, by decide, ?_, _, rfl, rfl⟩,
    ⟨fun c req => ⟨_, rfl, rfl⟩, by decide, ?_, ?_⟩⟩
  · intro b hb
    rcases List.mem_or_eq_of_mem_set hb with h | h
    · rw [List.eq_of_mem_replicate h]; rfl
    · rw [h]; decide
  · intro b hb
    rcases List.mem_or_eq_of_mem_set hb with h | h
    · rcases List.mem_or_eq_of_mem_set h with h | h
      · rw [List.eq_of_mem_replicate h]; rfl
      · rw [h]; decide
    · rw [h]; decide
  · intro fuel
    have h1 : nodeAB.RoutingTable.FindClosestBucket idK = some ⟨[idB]⟩ := by decide
    have h2 : (⟨[idB]⟩ : Bucket).Has idK = (false, 0) := by decide
    have h3 := findNodeRemote_cycle idA idK idB (by decide) (by decide) fuel
    unfold Node.FindNode
    rw [if_neg (by decide)]
    simp only [h1, h2]
    rw [show nodeAB.NodeId = idA from rfl, h3]

theorem Message.Has_absent {m : Message} {id : NodeId} (h : (m.Has id).1 = false) :
    m.Has id = (false, 0) := by
  unfold Message.Has at h ⊢
  cases hk : indexOfKey id.Key m.Nodes with
  | none => rfl
  | some j => rw [hk] at h; cases h

theorem RemoteResult.after_returned {pre : List (NodeId × Message)}
    {o : Outcome RemoteResult} {r : RemoteResult}
    (h : RemoteResult.after pre o = .returned r) :
    ∃ r0, o = .returned r0 ∧ r.err = r0.err ∧ r.found = r0.found := by
  cases o with
  | returned r0 =>
    refine ⟨r0, rfl, ?_, ?_⟩ <;>
    · unfold RemoteResult.after at h
      cases h
      rfl
  | fatal => cases h
  | outOfFuel => cases h

theorem queryLoop_err (net : Net) (self s : NodeId)
    (recurse : Bucket → Outcome RemoteResult)
    (hnet : ∀ c req m, net c req = some m → (m.Has s).1 = false)
    (hrec : ∀ b r, recurse b = .returned r →
      r.err = some "Node not found or not in the network" ∨
        r.err = some "Can't search for self") :
    ∀ (l : List NodeId) (r : RemoteResult),
      queryLoop net self s recurse l = .returned r →
      r.err = some "Node not found or not in the network" ∨
        r.err = some "Can't search for self"
  | [], r => fun h => by
    unfold queryLoop at h
    cases h
    exact Or.inl rfl
  | c :: rest, r => fun h => by
    unfold queryLoop at h
    cases hm : net c (findNodeRequest self c s) with
    | none => simp only [hm] at h; cases h
    | some m =>
      simp only [hm, Message.Has_absent (hnet c _ m hm)] at h
      split at h
      · obtain ⟨r0, h0, herr, _⟩ := RemoteResult.after_returned h
        rw [herr]
        exact hrec _ r0 h0
      · obtain ⟨r0, h0, herr, _⟩ := RemoteResult.after_returned h
        rw [herr]
        exact queryLoop_err net self s recurse hnet hrec rest r0 h0

theorem findNodeRemote_err (net : Net) (self s : NodeId)
    (hnet : ∀ c req m, net c req = some m → (m.Has s).1 = false) :
    ∀ (fuel : Nat) (bucket : Bucket) (r : RemoteResult),
      findNodeRemote net self s fuel bucket = .returned r →
      r.err = some "Node not found or not in the network" ∨
        r.err = some "Can't search for self"
  | 0, _, _ => fun h => by
    unfold findNodeRemote at h
    cases h
  | fuel + 1, bucket, r => fun h => by
    cases hs : (bucket.Has self).1 with
    | true =>
      obtain ⟨x, hx⟩ := findNodeRemote_self net self s fuel bucket hs
      rw [hx] at h
      cases h
      exact Or.inr rfl
    | false =>
      rw [findNodeRemote_succ net self s fuel bucket hs] at h
      exact queryLoop_err net self s _ hnet
        (fun b r0 h0 => findNodeRemote_err net self s hnet fuel b r0 h0) bucket.nodes r h

theorem exists_rank_bound (rank : NodeId → Nat) :
    ∀ l : List NodeId, ∃ F, ∀ x ∈ l, rank x < F
  | [] => ⟨0, fun x hx => absurd hx (List.not_mem_nil x)⟩
  | c :: l => by
    obtain ⟨F, hF⟩ := exists_rank_bound rank l
    refine ⟨max (rank c + 1) F, fun x hx => ?_⟩
    rcases List.mem_cons.mp hx with h | h
    · rw [h]; exact Nat.lt_of_lt_of_le (Nat.lt_succ_self _) (Nat.le_max_left _ _)
    · exact Nat.lt_of_lt_of_le (hF x h) (Nat.le_max_right _ _)

theorem queryLoop_returns (net : Net) (self k : NodeId) (live : NodeId → Prop)
    (rank : NodeId → Nat) (recurse : Bucket → Outcome RemoteResult) (F : Nat)
    (hstep : ∀ c, live c → ∃ m, net c (findNodeRequest self c k) = some m ∧
      (m.Has k).1 = false ∧ ∀ x ∈ m.Nodes, live x ∧ rank x < rank c)
    (hrec : ∀ b : Bucket, (∀ x ∈ b.nodes, live x ∧ rank x < F) →
      ∃ r, recurse b = .returned r ∧
        (r.err = some "Node not found or not in the network" ∨
          r.err = some "Can't search for self") ∧
        ((∀ x, live x → x.Key ≠ self.Key) →
          r.err = some "Node not found or not in the network")) :
    ∀ l : List NodeId, (∀ x ∈ l, live x ∧ rank x < F + 1) →
      ∃ r, queryLoop net self k recurse l = .returned r ∧
        (r.err = some "Node not found or not in the network" ∨
          r.err = some "Can't search for self") ∧
        ((∀ x, live x → x.Key ≠ self.Key) →
          r.err = some "Node not found or not in the network")
  | [] => fun _ =>
    ⟨⟨none, some "Node not found or not in the network", []⟩, rfl, Or.inl rfl, fun _ => rfl⟩
  | c :: rest => fun hl => by
    obtain ⟨hc, hrank⟩ := hl c (List.mem_cons_self c rest)
    obtain ⟨m, hm, hhas, hnodes⟩ := hstep c hc
    unfold queryLoop
    simp only [hm, Message.Has_absent hhas]
    split
    · obtain ⟨r, hr, h1, h2⟩ := hrec (NewBucket m.Nodes)
        (fun x hx => ⟨(hnodes x hx).1, by have := (hnodes x hx).2; omega⟩)
      rw [hr]
      exact ⟨_, rfl, h1, h2⟩
    · obtain ⟨r, hr, h1, h2⟩ := queryLoop_returns net self k live rank recurse F hstep hrec
        rest (fun x hx => hl x (List.mem_cons_of_mem c hx))
      rw [hr]
      exact ⟨_, rfl, h1, h2⟩

theorem findNodeRemote_guard (net : Net) (self k : NodeId) (live : NodeId → Prop)
    (fuel : Nat) (bucket : Bucket) (hb : ∀ x ∈ bucket.nodes, live x)
    (hs : (bucket.Has self).1 = true) :
    ∃ r, findNodeRemote net self k (fuel + 1) bucket = .returned r ∧
      (r.err = some "Node not found or not in the network" ∨
        r.err = some "Can't search for self") ∧
      ((∀ x, live x → x.Key ≠ self.Key) →
        r.err = some "Node not found or not in the network") := by
  obtain ⟨x, hx⟩ := findNodeRemote_self net self k fuel bucket hs
  refine ⟨_, hx, Or.inr rfl, fun hno => ?_⟩
  obtain ⟨y, hy, hyk⟩ := (Bucket.Has_true_iff bucket self).mp hs
  exact absurd hyk (hno y (hb y hy))

theorem findNodeRemote_returns (net : Net) (self k : NodeId) (live : NodeId → Prop)
    (rank : NodeId → Nat)
    (hstep : ∀ c, live c → ∃ m, net c (findNodeRequest self c k) = some m ∧
      (m.Has k).1 = false ∧ ∀ x ∈ m.Nodes, live x ∧ rank x < rank c) :
    ∀ (F : Nat) (bucket : Bucket), (∀ x ∈ bucket.nodes, live x ∧ rank x < F) →
      ∃ r, findNodeRemote net self k (F + 1) bucket = .returned r ∧
        (r.err = some "Node not found or not in the network" ∨
          r.err = some "Can't search for self") ∧
        ((∀ x, live x → x.Key ≠ self.Key) →
          r.err = some "Node not found or not in the network")
  | 0, bucket => fun hb => by
    cases hs : (bucket.Has self).1 with
    | true => exact findNodeRemote_guard net self k live 0 bucket (fun x hx => (hb x hx).1) hs
    | false =>
      rw [findNodeRemote_succ net self k 0 bucket hs]
      cases hn : bucket.nodes with
      | nil => exact ⟨_, rfl, Or.inl rfl, fun _ => rfl⟩
      | cons y ys =>
        have := (hb y (by rw [hn]; exact List.mem_cons_self y ys)).2
        exact absurd this (Nat.not_lt_zero _)
  | F + 1, bucket => fun hb => by
    cases hs : (bucket.Has self).1 with
    | true =>
      exact findNodeRemote_guard net self k live (F + 1) bucket (fun x hx => (hb x hx).1) hs
    | false =>
      rw [findNodeRemote_succ net self k (F + 1) bucket hs]
      exact queryLoop_returns net self k live rank _ F hstep
        (fun b hb2 => findNodeRemote_returns net self k live rank hstep F b hb2)
        bucket.nodes hb

/-- C7 (amended): for a target `k` with another key than the node, in no
bucket of the node, and a network no reply of which contains `k`.
(1) Whenever `FindNode(k)` returns, it returns no result, an error that is
"Node not found or not in the network" or "Can't search for self", and the
table unchanged. (2) When the replies have no cycle, `FindNode(k)` does
return, with that outcome, for every amount of fuel from some bound on:
`live` is any set of contacts that holds the bucket returned by
`FindClosestBucket(k)` and the contacts of every reply of its members, every
member can be dialled, and every reply of a member lists only contacts of
smaller `rank`; when no member has the key of the node itself the error is
"Node not found or not in the network". (3) When the bucket returned by
`FindClosestBucket(k)` does not hold the node itself and every peer answers
with an empty `Nodes` list, `FindNode(k)` returns that error for every
positive amount of fuel after one request to each contact of that bucket in
order. -/
theorem C7_search_without_target (net : Net) (n : Node) (k : NodeId)
    (hne : k.Key ≠ n.NodeId.Key)
    (hnotin : ∀ b ∈ n.RoutingTable.buckets, (b.Has k).1 = false)
    (hnet : ∀ c req m, net c req = some m → (m.Has k).1 = false) :
    (∀ fuel r, n.FindNode net fuel k = .returned r →
      r.found = none ∧ r.table = n.RoutingTable ∧
      (r.err = some "Node not found or not in the network" ∨
        r.err = some "Can't search for self")) ∧
    (∀ (live : NodeId → Prop) (rank : NodeId → Nat),
      (∀ b, n.RoutingTable.FindClosestBucket k = some b → ∀ x ∈ b.nodes, live x) →
      (∀ c, live c → ∃ m, net c (findNodeRequest n.NodeId c k) = some m ∧
        ∀ x ∈ m.Nodes, live x ∧ rank x < rank c) →
      ∃ bound, ∀ fuel, bound ≤ fuel →
        ∃ r, n.FindNode net fuel k = .returned r ∧
          r.found = none ∧ r.table = n.RoutingTable ∧
          (r.err = some "Node not found or not in the network" ∨
            r.err = some "Can't search for self") ∧
          ((∀ x, live x → x.Key ≠ n.NodeId.Key) →
            r.err = some "Node not found or not in the network")) ∧
    ((∀ b, n.RoutingTable.FindClosestBucket k = some b → (b.Has n.NodeId).1 = false) →
      (∀ c req, ∃ m, net c req = some m ∧ m.Nodes = []) →
      ∀ fuel, ∃ bucket, n.RoutingTable.FindClosestBucket k = some bucket ∧
        n.FindNode net (fuel + 1) k =
          .returned ⟨none, some "Node not found or not in the network",
            bucket.nodes.map (fun c => (c, findNodeRequest n.NodeId c k)),
            n.RoutingTable⟩) := by
  obtain ⟨bucket, hfind, hmem⟩ := FindClosestBucket_some n.RoutingTable k
  have hneq : ¬ n.NodeId = k := fun h => hne (h ▸ rfl)
  refine ⟨?_, ?_, ?_⟩
  · intro fuel r h
    unfold Node.FindNode at h
    rw [if_neg hneq] at h
    simp only [hfind, Bucket.Has_eq_of_false (hnotin bucket hmem)] at h
    cases hr : findNodeRemote net n.NodeId k fuel bucket with
    | outOfFuel => rw [hr] at h; cases h
    | fatal => rw [hr] at h; cases h
    | returned r0 =>
      rw [hr] at h
      have herr := findNodeRemote_err net n.NodeId k hnet fuel bucket r0 hr
      rcases herr with he | he
      · simp only [he] at h
        cases h
        exact ⟨rfl, rfl, Or.inl rfl⟩
      · simp only [he] at h
        cases h
        exact ⟨rfl, rfl, Or.inr rfl⟩
  · intro live rank hstart hstep
    obtain ⟨F, hF⟩ := exists_rank_bound rank bucket.nodes
    refine ⟨F + 1, fun fuel hfuel => ?_⟩
    obtain ⟨f, hf⟩ : ∃ f, fuel = f + 1 := ⟨fuel - 1, by omega⟩
    subst hf
    obtain ⟨r0, hr0, herr, hnf⟩ := findNodeRemote_returns net n.NodeId k live rank
      (fun c hc => by
        obtain ⟨m, hm, hx⟩ := hstep c hc
        exact ⟨m, hm, hnet c _ m hm, hx⟩)
      f bucket (fun x hx => ⟨hstart bucket hfind x hx, by have := hF x hx; omega⟩)
    unfold Node.FindNode
    rw [if_neg hneq]
    simp only [hfind, Bucket.Has_eq_of_false (hnotin bucket hmem), hr0]
    rcases herr with he | he
    · simp only [he]
      exact ⟨_, rfl, rfl, rfl, Or.inl rfl, fun _ => rfl⟩
    · simp only [he]
      refine ⟨_, rfl, rfl, rfl, Or.inr rfl, fun hno => ?_⟩
      have h := hnf hno
      rw [he] at h
      exact absurd h (by decide)
  · intro hself hempty fuel
    refine ⟨bucket, hfind, ?_⟩
    unfold Node.FindNode
    rw [if_neg hneq]
    simp only [hfind, Bucket.Has_eq_of_false (hnotin bucket hmem),
      findNodeRemote_succ net n.NodeId k fuel bucket (hself bucket hfind),
      queryLoop_no_contacts net n.NodeId k _ hempty]

set_option maxRecDepth 100000 in
/-- Witness of C7 (amended): the node `idA` that knows `idB` searches `idK`.
When `idB` answers `[idC]` and `idC` answers without contacts, the replies
have no cycle (`idB` has rank 1, `idC` rank 0) and the search returns "Node
not found or not in the network" from some amount of fuel on; when every peer
answers without contacts it returns that error after the one request to
`idB`. -/
theorem C7_search_without_target_witness :
    (∃ bound, ∀ fuel, bound ≤ fuel →
      ∃ r, nodeAB.FindNode (netOnly idB idC) fuel idK = .returned r ∧
        r.found = none ∧ r.table = nodeAB.RoutingTable ∧
        r.err = some "Node not found or not in the network") ∧
    (∀ fuel r, nodeAB.FindNode netSilent fuel idK = .returned r →
      r.found = none ∧ r.table = nodeAB.RoutingTable ∧
      (r.err = some "Node not found or not in the network" ∨
        r.err = some "Can't search for self")) ∧
    (∀ fuel, ∃ bucket, nodeAB.RoutingTable.FindClosestBucket idK = some bucket ∧
        nodeAB.FindNode netSilent (fuel + 1) idK =
          .returned ⟨none, some "Node not found or not in the network",
            bucket.nodes.map (fun c => (c, findNodeRequest nodeAB.NodeId c idK)),
            nodeAB.RoutingTable⟩) := by
  have hnotin : ∀ b ∈ nodeAB.RoutingTable.buckets, (b.Has idK).1 = false := by
    intro b hb
    rcases List.mem_or_eq_of_mem_set hb with h | h
    · rcases List.mem_or_eq_of_mem_set h with h | h
      · rw [List.eq_of_mem_replicate h]; rfl
      · rw [h]; decide
    · rw [h]; decide
  have hclosest : nodeAB.RoutingTable.FindClosestBucket idK = some ⟨[idB]⟩ := by decide
  have hchain := C7_search_without_target (netOnly idB idC) nodeAB idK (by decide) hnotin
    (by
      intro c req m hm
      unfold netOnly at hm
      split at hm <;>
      · cases hm
        rfl)
  have hsilent := C7_search_without_target netSilent nodeAB idK (by decide) hnotin
    (by
      intro c req m hm
      cases hm
      rfl)
  refine ⟨?_, hsilent.1, hsilent.2.2 ?_ (fun _ _ => ⟨_, rfl, rfl⟩)⟩
  · obtain ⟨bound, hbound⟩ := hchain.2.1
      (fun x => x = idB ∨ x = idC) (fun x => if x = idB then 1 else 0)
      (by
        intro b hb x hx
        rw [hclosest] at hb
        rw [← Option.some.inj hb] at hx
        exact Or.inl (List.mem_singleton.mp hx))
      (by
        intro c hc
        rcases hc with hc | hc
        · subst hc
          refine ⟨{ findNodeRequest nodeAB.NodeId idB idK with Nodes := [idC] }, rfl, ?_⟩
          intro x hx
          rw [List.mem_singleton.mp hx]
          exact ⟨Or.inr rfl, by decide⟩
        · subst hc
          exact ⟨{ findNodeRequest nodeAB.NodeId idC idK with Nodes := [] }, rfl,
            fun x hx => absurd hx (List.not_mem_nil x)⟩)
    refine ⟨bound, fun fuel hfuel => ?_⟩
    obtain ⟨r, h1, h2, h3, _, h5⟩ := hbound fuel hfuel
    refine ⟨r, h1, h2, h3, h5 ?_⟩
    intro x hx
    rcases hx with hx | hx
    · rw [hx]; decide
    · rw [hx]; decide
  · intro b hb
    rw [hclosest] at hb
    rw [← Option.some.inj hb]
    decide

set_option maxRecDepth 100000 in
/-- C6 (as the claim states it, refuted): the table of `idA` holds `idA` and
the one neighbour `idK` (bucket 159); the ideal bucket of the target `idB`
(bucket 1) is empty and the reply of `idK` contains `idB`; yet `FindNode(idB)`
returns the error "Can't search for self" without a request, because the walk
towards index 0 ends in bucket 0, which holds `idA`. -/
theorem C6_neighbour_above_ideal_bucket :
    NewRoutingTable idA = some tableA ∧ tableA.Add idK = some (tableAK, 159) ∧
      idB.Key ≠ idA.Key ∧ idB.Key ≠ idK.Key ∧
      tableAK.buckets[bucketIndex (idA.DistanceTo idB)]? = some ⟨[]⟩ ∧
      (∃ m, netKnows idB idK (findNodeRequest idA idK idB) = some m ∧
        (m.Has idB).1 = true) ∧
      ∀ fuel, ∃ r, nodeAK.FindNode (netKnows idB) (fuel + 1) idB = .returned r ∧
        r.found = none ∧ r.err = some "Can't search for self" ∧ r.sent = [] :=
  ⟨rfl, rfl, by decide, by decide, by decide, ⟨_, rfl, by decide⟩,
    fun _ => ⟨_, rfl, rfl, rfl, rfl⟩⟩

theorem table_of_two (a c : NodeId) (rt0 rt : RoutingTable) (i : Nat)
    (hnew : NewRoutingTable a = some rt0) (hadd : rt0.Add c = some (rt, i))
    (hca : c.Key ≠ a.Key) :
    rt.currentNode = a ∧ 0 < bucketIndex (a.DistanceTo c) ∧
      rt.buckets = ((List.replicate Distance_Buckets ⟨[]⟩).set 0 ⟨[a]⟩).set
        (bucketIndex (a.DistanceTo c)) ⟨[c]⟩ := by
  obtain ⟨rt0b, h0, hcur0, hbs0⟩ := NewRoutingTable_eq a
  rw [h0] at hnew
  have hrt0 : rt0b = rt0 := Option.some.inj hnew
  subst hrt0
  obtain ⟨rt2, b0, hadd2, hb0, hcur2, hbs2⟩ := RoutingTable.Add_eq rt0b c
  rw [hadd2] at hadd
  have hrt : rt2 = rt := (Prod.mk.inj (Option.some.inj hadd)).1
  subst hrt
  rw [hcur0] at hb0 hbs2
  have hpos : 0 < bucketIndex (a.DistanceTo c) :=
    bucketIndex_pos_of_ne (fun h => hca h.symm)
  have hlt : bucketIndex (a.DistanceTo c) < Distance_Buckets :=
    bucketIndex_distance_lt a c
  rw [hbs0, newTable_get_succ a hpos hlt] at hb0
  cases Option.some.inj hb0
  refine ⟨hcur2.trans hcur0, hpos, ?_⟩
  rw [hbs2, hbs0]
  rfl

/-- C6 (amended): the table of node `a` holds `a` and one neighbour `c`, the
target `k` has another key than `a` and `c`, and the bucket of `c` has a
smaller index than the ideal bucket of `k` (which is then empty, and the walk
towards index 0 stops at the bucket of `c`). If the reply of `c` to
FIND_NODE(`k`) contains `k`, then `FindNode(k)` returns, for every positive
amount of fuel, the contact of that reply with the key of `k` and a nil error
after exactly one request, sent to `c`, and the table afterwards has `k` in
its ideal bucket. -/
theorem C6_one_hop_through_neighbour (net : Net) (fuel : Nat) (a c k : NodeId)
    (rt0 rt : RoutingTable) (i : Nat) (reply : Message)
    (hnew : NewRoutingTable a = some rt0) (hadd : rt0.Add c = some (rt, i))
    (hca : c.Key ≠ a.Key) (hka : k.Key ≠ a.Key) (hkc : k.Key ≠ c.Key)
    (hlow : bucketIndex (a.DistanceTo c) < bucketIndex (a.DistanceTo k))
    (hreply : net c (findNodeRequest a c k) = some reply)
    (hknows : (reply.Has k).1 = true) :
    rt.buckets[bucketIndex (a.DistanceTo k)]? = some ⟨[]⟩ ∧
    ∃ found rt1 b, (Node.mk a rt).FindNode net (fuel + 1) k =
        .returned ⟨some found, none, [(c, findNodeRequest a c k)], rt1⟩ ∧
      found.Key = k.Key ∧ found ∈ reply.Nodes ∧
      rt.Add found = some (rt1, bucketIndex (a.DistanceTo k)) ∧
      rt1.buckets[bucketIndex (a.DistanceTo k)]? = some b ∧ (b.Has k).1 = true := by
  obtain ⟨hcur, hpos, hbs⟩ := table_of_two a c rt0 rt i hnew hadd hca
  have hltK : bucketIndex (a.DistanceTo k) < Distance_Buckets := bucketIndex_distance_lt a k
  have hlen : rt.buckets.length = Distance_Buckets := rt.hlen
  have hempty : ∀ j, bucketIndex (a.DistanceTo c) < j → j < Distance_Buckets →
      rt.buckets[j]? = some ⟨[]⟩ := by
    intro j h1 h2
    rw [hbs, List.getElem?_set_ne (by omega), newTable_get_succ a (by omega) h2]
  have hbc : rt.buckets[bucketIndex (a.DistanceTo c)]? = some ⟨[c]⟩ := by
    rw [hbs]
    apply List.getElem?_set_self
    rw [List.length_set, List.length_replicate]
    omega
  have hfind : rt.FindClosestBucket k = some ⟨[c]⟩ := by
    unfold RoutingTable.FindClosestBucket
    rw [hcur]
    apply closestLoop_walk rt.buckets _ _ hbc rfl _ (Nat.le_of_lt hlow) (by omega)
    intro j b1 h1 h2 hb1
    rw [hempty j h1 (by omega)] at hb1
    rw [← Option.some.inj hb1]
    rfl
  obtain ⟨idx, found, hHas, hget, hfk, hfmem⟩ := Message.Has_found hknows
  obtain ⟨rt1, b1, hadd1, hb1, _, hbs1⟩ := rt.Add_eq found
  have hidx : bucketIndex (rt.currentNode.DistanceTo found) = bucketIndex (a.DistanceTo k) := by
    unfold NodeId.DistanceTo
    rw [hcur, hfk]
  rw [hidx] at hadd1 hb1 hbs1
  refine ⟨hempty _ hlow hltK, found, rt1, b1.Add found, ?_, hfk, hfmem, hadd1, ?_, ?_⟩
  · have hneq : ¬ a = k := fun h => hka (h ▸ rfl)
    unfold Node.FindNode
    rw [if_neg hneq]
    simp only [hfind, Bucket.Has_singleton_ne (fun h => hkc h.symm),
      findNodeRemote_succ net a k fuel ⟨[c]⟩
        (by rw [Bucket.Has_singleton_ne hca])]
    unfold queryLoop
    simp only [hreply, hHas, hget, hadd1]
  · rw [hbs1]
    exact List.getElem?_set_self (by omega)
  · rw [Bucket.Has_true_iff]
    obtain ⟨x, hx, hxk⟩ := (Bucket.Has_true_iff _ _).mp (Bucket.Add_has b1 found)
    exact ⟨x, hx, hxk.trans hfk⟩

set_option maxRecDepth 100000 in
/-- Witness of C6 (amended): `idA` knows `idB` (bucket 1), searches `idK`
(ideal bucket 159), and `idB` answers with `idK`. -/
theorem C6_one_hop_through_neighbour_witness :
    tableAB.buckets[bucketIndex (idA.DistanceTo idK)]? = some ⟨[]⟩ ∧
    ∃ found rt1 b, (Node.mk idA tableAB).FindNode (netKnows idK) (0 + 1) idK =
        .returned ⟨some found, none, [(idB, findNodeRequest idA idB idK)], rt1⟩ ∧
      found.Key = idK.Key ∧ found ∈ ({ findNodeRequest idA idB idK with
        Nodes := [idK] } : Message).Nodes ∧
      tableAB.Add found = some (rt1, bucketIndex (idA.DistanceTo idK)) ∧
      rt1.buckets[bucketIndex (idA.DistanceTo idK)]? = some b ∧ (b.Has idK).1 = true :=
  C6_one_hop_through_neighbour (netKnows idK) 0 idA idB idK tableA tableAB 1 _
    rfl rfl (by decide) (by decide) (by decide) (by decide) rfl (by decide)

/-! ## Construction, the handler and the local hit -/

theorem NewRoutingTable_fresh (id : NodeId) :
    ∃ rt, NewRoutingTable id = some rt ∧ rt.currentNode = id ∧
      rt.buckets[0]? = some ⟨[id]⟩ ∧
      ∀ k, 1 ≤ k → k < Distance_Buckets → rt.buckets[k]? = some ⟨[]⟩ := by
  obtain ⟨rt, hnew, hcur, hbs⟩ := NewRoutingTable_eq id
  refine ⟨rt, hnew, hcur, ?_, ?_⟩
  · rw [hbs]; exact newTable_get_zero id
  · intro k h1 h2
    rw [hbs]; exact newTable_get_succ id h1 h2

theorem NewNodeWithId_fresh (id : NodeId) :
    ∃ n, NewNodeWithId id = some n ∧ n.NodeId = id ∧
      n.RoutingTable.currentNode = id ∧
      n.RoutingTable.buckets[0]? = some ⟨[id]⟩ ∧
      ∀ k, 1 ≤ k → k < Distance_Buckets → n.RoutingTable.buckets[k]? = some ⟨[]⟩ := by
  obtain ⟨rt, hnew, hcur, h0, hk⟩ := NewRoutingTable_fresh id
  refine ⟨⟨id, rt⟩, ?_, rfl, hcur, h0, hk⟩
  unfold NewNodeWithId
  rw [hnew]
  rfl

/-- C11: for every `NodeId` `id`, `NewRoutingTable(id)` returns a table whose
bucket 0 holds exactly `id` and whose buckets 1..159 are empty; the nodes
built by `NewNodeWithId`, `NewNodeWithKey`, `NewNode` and `NewNodeWithPort`
hold such a table for their own `NodeId`. -/
theorem C11_new_table_holds_only_self :
    (∀ id : NodeId, ∃ rt, NewRoutingTable id = some rt ∧ rt.currentNode = id ∧
      rt.buckets[0]? = some ⟨[id]⟩ ∧
      ∀ k, 1 ≤ k → k < Distance_Buckets → rt.buckets[k]? = some ⟨[]⟩) ∧
    (∀ id : NodeId, ∃ n, NewNodeWithId id = some n ∧ n.NodeId = id ∧
      n.RoutingTable.currentNode = id ∧
      n.RoutingTable.buckets[0]? = some ⟨[id]⟩ ∧
      ∀ k, 1 ≤ k → k < Distance_Buckets → n.RoutingTable.buckets[k]? = some ⟨[]⟩) ∧
    (∀ (addr : Nat) (key : Key), ∃ n, NewNodeWithKey addr key = some n ∧
      n.NodeId = NewNodeIdWith addr key ∧
      n.RoutingTable.buckets[0]? = some ⟨[n.NodeId]⟩ ∧
      ∀ k, 1 ≤ k → k < Distance_Buckets → n.RoutingTable.buckets[k]? = some ⟨[]⟩) ∧
    (∀ (randomKey : Key) (addr : Nat), ∃ n, NewNode randomKey addr = some n ∧
      n.NodeId = NewNodeIdWith addr randomKey ∧
      n.RoutingTable.buckets[0]? = some ⟨[n.NodeId]⟩ ∧
      ∀ k, 1 ≤ k → k < Distance_Buckets → n.RoutingTable.buckets[k]? = some ⟨[]⟩) ∧
    (∀ (randomKey : Key) (ip port : Nat), port ≤ 65535 →
      ∃ n, NewNodeWithPort randomKey (some ip) port = some n ∧
      n.NodeId = NewNodeIdWithIp randomKey ip ∧
      n.RoutingTable.buckets[0]? = some ⟨[n.NodeId]⟩ ∧
      ∀ k, 1 ≤ k → k < Distance_Buckets → n.RoutingTable.buckets[k]? = some ⟨[]⟩) := by
  refine ⟨NewRoutingTable_fresh, NewNodeWithId_fresh, ?_, ?_, ?_⟩
  · intro addr key
    obtain ⟨n, hn, hid, _, h0, hk⟩ := NewNodeWithId_fresh (NewNodeIdWith addr key)
    exact ⟨n, hn, hid, by rw [hid]; exact h0, hk⟩
  · intro randomKey addr
    obtain ⟨n, hn, hid, _, h0, hk⟩ := NewNodeWithId_fresh (NewNodeIdWith addr randomKey)
    exact ⟨n, hn, hid, by rw [hid]; exact h0, hk⟩
  · intro randomKey ip port hport
    obtain ⟨rt, hnew, _, h0, hk⟩ := NewRoutingTable_fresh (NewNodeIdWithIp randomKey ip)
    refine ⟨⟨NewNodeIdWithIp randomKey ip, rt⟩, ?_, rfl, h0, hk⟩
    unfold NewNodeWithPort
    rw [if_neg (by omega)]
    simp only [hnew, Option.map_some']

/-- C18: `bucketIndex(p) = 160 - p` for `1 <= p <= 160`, so it is strictly
decreasing there; `bucketIndex(0) = 159 = bucketIndex(1)`, and 0 and 1 are the
only two distinct lengths in `[0, 160]` with the same bucket index. -/
theorem C18_bucketIndex_shape :
    (∀ p, 1 ≤ p → p ≤ Distance_Buckets → bucketIndex p = Distance_Buckets - p) ∧
    (∀ p q, 1 ≤ p → p < q → q ≤ Distance_Buckets → bucketIndex q < bucketIndex p) ∧
    bucketIndex 0 = 159 ∧ bucketIndex 1 = 159 ∧
    (∀ p q, p < q → q ≤ Distance_Buckets → bucketIndex p = bucketIndex q →
      p = 0 ∧ q = 1) := by
  unfold Distance_Buckets
  refine ⟨?_, ?_, by decide, by decide, ?_⟩
  · intro p h1 h2
    rw [bucketIndex_of_le h2, if_neg (by omega)]
  · intro p q h1 h2 h3
    rw [bucketIndex_of_le h3, bucketIndex_of_le (by omega : p ≤ 160),
      if_neg (by omega), if_neg (by omega)]
    omega
  · intro p q h1 h2 h3
    rw [bucketIndex_of_le h2, bucketIndex_of_le (by omega : p ≤ 160)] at h3
    split at h3 <;> split at h3 <;> omega

theorem FindClosestBucketById_some (rt : RoutingTable) (id : Key) :
    ∃ b, rt.FindClosestBucketById id = some b := by
  have hlt : bucketIndex (rt.currentNode.Key.SharedPrefixLen id) < rt.buckets.length := by
    rw [rt.hlen]; exact bucketIndex_lt (SharedPrefixLen_le _ _)
  obtain ⟨j, b, _, _, hloop, _, _⟩ := closestLoop_spec rt.buckets _ hlt
  exact ⟨b, hloop⟩

/-- C12: an inbound FIND_NODE message addressed to the key of the node gets
the response with type FIND_NODE, `From` the key of the node, `TO` the sender,
the same `FindId`, and `Nodes` the contacts of the bucket returned by
`FindClosestBucketById(msg.FindId)`; the routing table is the one it was. -/
theorem C12_find_node_response (n : Node) (msg : Message)
    (hto : msg.TO = n.NodeId.Key) (htyp : msg.Typ = .FIND_NODE) :
    ∃ b, n.RoutingTable.FindClosestBucketById msg.FindId = some b ∧
      n.handleConnection msg =
        some (some ⟨.FIND_NODE, n.NodeId.Key, msg.From, msg.FindId, b.nodes⟩,
          n.RoutingTable) := by
  obtain ⟨b, hb⟩ := FindClosestBucketById_some n.RoutingTable msg.FindId
  refine ⟨b, hb, ?_⟩
  obtain ⟨typ, sender, receiver, findId, nodes⟩ := msg
  simp only at hto htyp hb
  subst hto htyp
  unfold Node.handleConnection
  simp only [ne_eq, not_true_eq_false, if_false, hb]

set_option maxRecDepth 100000 in
/-- Witness of C12: the fresh node `idA` is asked by `idB` for `idK`. -/
theorem C12_find_node_response_witness :
    ∃ b, nodeA.RoutingTable.FindClosestBucketById (findNodeRequest idB idA idK).FindId
        = some b ∧
      nodeA.handleConnection (findNodeRequest idB idA idK) =
        some (some ⟨.FIND_NODE, nodeA.NodeId.Key, (findNodeRequest idB idA idK).From,
          (findNodeRequest idB idA idK).FindId, b.nodes⟩, nodeA.RoutingTable) :=
  C12_find_node_response nodeA (findNodeRequest idB idA idK) rfl rfl

/-- C13: an inbound PING addressed to the key of node `B` gets a PONG with
`From` the key of `B` and `TO` the sender of the request; so `Ping(B)` called
on a node `a`, over a network that delivers the response of `B`, returns a
PONG with `From = B.Key` and `TO = a.Key`. -/
theorem C13_ping_gets_pong (B : Node) (msg : Message)
    (hto : msg.TO = B.NodeId.Key) (htyp : msg.Typ = .PING) :
    B.handleConnection msg =
        some (some ⟨.PONG, B.NodeId.Key, msg.From, msg.FindId, msg.Nodes⟩,
          B.RoutingTable) ∧
    ∀ (a : Node) (net : Net),
      (∀ resp rt, B.handleConnection (pingRequest a B) = some (some resp, rt) →
        net B.NodeId (pingRequest a B) = some resp) →
      ∃ m, a.Ping net B = .returned m ∧ m.Typ = .PONG ∧ m.From = B.NodeId.Key ∧
        m.TO = a.NodeId.Key := by
  constructor
  · obtain ⟨typ, sender, receiver, findId, nodes⟩ := msg
    simp only at hto htyp
    subst hto htyp
    unfold Node.handleConnection
    simp only [ne_eq, not_true_eq_false, if_false]
  · intro a net hnet
    have h : B.handleConnection (pingRequest a B) =
        some (some ⟨.PONG, B.NodeId.Key, a.NodeId.Key, 0, []⟩, B.RoutingTable) := by
      unfold Node.handleConnection pingRequest
      simp only [ne_eq, not_true_eq_false, if_false]
    refine ⟨⟨.PONG, B.NodeId.Key, a.NodeId.Key, 0, []⟩, ?_, rfl, rfl, rfl⟩
    unfold Node.Ping
    rw [hnet _ _ h]

/-- Witness of C13: the fresh node `idB` receives the PING `pingToB`. -/
theorem C13_ping_gets_pong_witness :
    nodeB.handleConnection pingToB =
        some (some ⟨.PONG, nodeB.NodeId.Key, pingToB.From, pingToB.FindId, pingToB.Nodes⟩,
          nodeB.RoutingTable) ∧
    ∀ (a : Node) (net : Net),
      (∀ resp rt, nodeB.handleConnection (pingRequest a nodeB) = some (some resp, rt) →
        net nodeB.NodeId (pingRequest a nodeB) = some resp) →
      ∃ m, a.Ping net nodeB = .returned m ∧ m.Typ = .PONG ∧ m.From = nodeB.NodeId.Key ∧
        m.TO = a.NodeId.Key :=
  C13_ping_gets_pong nodeB pingToB rfl rfl

/-- C14: for a target with another key than the node that is a member of the
bucket returned by `FindClosestBucket(target)`, `FindNode(target)` returns the
contact stored in that bucket under the key of the target, at the position
`Has` reports, with a nil error, no request, and the table unchanged. -/
theorem C14_local_hit (net : Net) (fuel : Nat) (n : Node) (target : NodeId)
    (bucket : Bucket) (hkey : target.Key ≠ n.NodeId.Key)
    (hclosest : n.RoutingTable.FindClosestBucket target = some bucket)
    (hmember : (bucket.Has target).1 = true) :
    ∃ i x, bucket.Has target = (true, i) ∧ bucket.nodes[i]? = some x ∧
      x.Key = target.Key ∧
      n.FindNode net fuel target = .returned ⟨some x, none, [], n.RoutingTable⟩ := by
  obtain ⟨i, x, hHas, hget, hxk, _⟩ := Bucket.Has_eq_of_true hmember
  refine ⟨i, x, hHas, hget, hxk, ?_⟩
  have hneq : ¬ n.NodeId = target := fun h => hkey (h ▸ rfl)
  unfold Node.FindNode
  rw [if_neg hneq]
  simp only [hclosest, hHas, hget]

set_option maxRecDepth 100000 in
/-- Witness of C14: the node `idA` that knows `idB` looks for `idB`. -/
theorem C14_local_hit_witness :
    ∃ i x, (⟨[idB]⟩ : Bucket).Has idB = (true, i) ∧ (⟨[idB]⟩ : Bucket).nodes[i]? = some x ∧
      x.Key = idB.Key ∧
      nodeAB.FindNode netDown 0 idB = .returned ⟨some x, none, [], nodeAB.RoutingTable⟩ :=
  C14_local_hit netDown 0 nodeAB idB ⟨[idB]⟩ (by decide) (by decide) (by decide)

set_option maxRecDepth 100000 in
/-- C15 (as the claim states it, refuted): the fresh node `idA` has the
all-zero key; the zero-value message left by a failed decode has the all-zero
`TO`, passes the test on `TO`, and is answered, whatever its type field. -/
theorem C15_zero_key_node_answers :
    NewNodeWithId idA = some nodeA ∧ nodeA.NodeId.Key = 0 ∧
      (∃ resp, nodeA.handleConnection zeroMessage = some (some resp, nodeA.RoutingTable)) ∧
      ∀ t : MessageType, ∃ resp,
        nodeA.handleConnection { zeroMessage with Typ := t } =
          some (some resp, nodeA.RoutingTable) := by
  refine ⟨rfl, rfl, ⟨_, rfl⟩, ?_⟩
  intro t
  cases t <;> exact ⟨_, rfl⟩

/-- C15 (amended): on a node whose key is not the all-zero key, the zero-value
message left by a failed decode, whatever its type field, gets no response. -/
theorem C15_zero_message_dropped (n : Node) (t : MessageType)
    (hkey : n.NodeId.Key ≠ 0) :
    n.handleConnection { zeroMessage with Typ := t } = some (none, n.RoutingTable) := by
  unfold Node.handleConnection
  rw [if_pos (fun h => hkey h.symm)]

/-- Witness of C15 (amended): the fresh node `idB`, whose key is 1. -/
theorem C15_zero_message_dropped_witness :
    nodeB.handleConnection { zeroMessage with Typ := .PING } =
      some (none, nodeB.RoutingTable) :=
  C15_zero_message_dropped nodeB .PING (by decide)

/-! ## The guard and the loop of the remote search -/

theorem Bucket.not_empty_of_has {b : Bucket} {id : NodeId} (h : (b.Has id).1 = true) :
    b.IsEmpty = false := by
  obtain ⟨x, hx, _⟩ := (Bucket.Has_true_iff b id).mp h
  unfold Bucket.IsEmpty
  cases hn : b.nodes with
  | nil => rw [hn] at hx; exact absurd hx (List.not_mem_nil x)
  | cons y ys => rfl

theorem FindNode_own_bucket (net : Net) (fuel : Nat) (n : Node) (target : NodeId)
    (b0 : Bucket) (hkey : target.Key ≠ n.NodeId.Key)
    (hb0 : n.RoutingTable.buckets[0]? = some b0)
    (hself : (b0.Has n.NodeId).1 = true)
    (htarget : (b0.Has target).1 = false)
    (hempty : ∀ k b, 1 ≤ k →
      k ≤ bucketIndex (n.RoutingTable.currentNode.DistanceTo target) →
      n.RoutingTable.buckets[k]? = some b → b.IsEmpty = true) :
    n.FindNode net (fuel + 1) target =
      .returned ⟨none, some "Can't search for self", [], n.RoutingTable⟩ := by
  have hlt : bucketIndex (n.RoutingTable.currentNode.DistanceTo target)
      < n.RoutingTable.buckets.length := by
    rw [n.RoutingTable.hlen]; exact bucketIndex_distance_lt _ _
  have hfind : n.RoutingTable.FindClosestBucket target = some b0 :=
    closestLoop_walk n.RoutingTable.buckets 0 b0 hb0 (Bucket.not_empty_of_has hself) _
      (Nat.zero_le _) hlt (fun k b h1 h2 hb => hempty k b h1 h2 hb)
  obtain ⟨x, hx⟩ := findNodeRemote_self net n.NodeId target fuel b0 hself
  have hneq : ¬ n.NodeId = target := fun h => hkey (h ▸ rfl)
  unfold Node.FindNode
  rw [if_neg hneq]
  simp only [hfind, Bucket.Has_eq_of_false htarget, hx]

/-- C16: for a target with another key than the node, when bucket 0 holds the
node itself and not the target and every bucket from index 1 up to the ideal
index of the target is empty, `FindNode(target)` returns no result and the
error "Can't search for self", without a request and without a change of the
table, whatever the buckets above the ideal index hold. In particular the node
of `NewNodeWithId(id)` does so for every target with another key. -/
theorem C16_fallback_to_own_bucket :
    (∀ (net : Net) (fuel : Nat) (n : Node) (target : NodeId) (b0 : Bucket),
      target.Key ≠ n.NodeId.Key →
      n.RoutingTable.buckets[0]? = some b0 →
      (b0.Has n.NodeId).1 = true →
      (b0.Has target).1 = false →
      (∀ k b, 1 ≤ k → k ≤ bucketIndex (n.RoutingTable.currentNode.DistanceTo target) →
        n.RoutingTable.buckets[k]? = some b → b.IsEmpty = true) →
      n.FindNode net (fuel + 1) target =
        .returned ⟨none, some "Can't search for self", [], n.RoutingTable⟩) ∧
    (∀ (net : Net) (fuel : Nat) (id target : NodeId), target.Key ≠ id.Key →
      ∃ n, NewNodeWithId id = some n ∧
        n.FindNode net (fuel + 1) target =
          .returned ⟨none, some "Can't search for self", [], n.RoutingTable⟩) := by
  refine ⟨FindNode_own_bucket, ?_⟩
  intro net fuel id target hkey
  obtain ⟨n, hn, hid, _, h0, hk⟩ := NewNodeWithId_fresh id
  refine ⟨n, hn, ?_⟩
  apply FindNode_own_bucket net fuel n target ⟨[id]⟩ (by rw [hid]; exact hkey) h0
  · rw [hid, Bucket.Has_true_iff]
    exact ⟨id, by simp, rfl⟩
  · rw [Bucket.Has_singleton_ne (fun h => hkey h.symm)]
  · intro k b h1 h2 hb
    have hlt : bucketIndex (n.RoutingTable.currentNode.DistanceTo target) < 160 :=
      bucketIndex_distance_lt _ _
    rw [hk k h1 (by unfold Distance_Buckets; omega)] at hb
    rw [← Option.some.inj hb]
    rfl

set_option maxRecDepth 100000 in
/-- Witness of C16: the node `idA` knows `idK` in bucket 159, above the ideal
bucket 1 of the target `idB`; the search for `idB` ends in bucket 0. -/
theorem C16_fallback_to_own_bucket_witness :
    nodeAK.FindNode (netKnows idB) (0 + 1) idB =
      .returned ⟨none, some "Can't search for self", [], nodeAK.RoutingTable⟩ :=
  C16_fallback_to_own_bucket.1 (netKnows idB) 0 nodeAK idB ⟨[idA]⟩ (by decide) (by decide)
    (by decide) (by decide) (by
      intro k b h1 h2 hb
      have hk : k = 1 := Nat.le_antisymm h2 h1
      subst hk
      have h : nodeAK.RoutingTable.buckets[1]? = some ⟨[]⟩ := by decide
      rw [h] at hb
      rw [← Option.some.inj hb]
      rfl)

theorem RemoteResult.after_after (p q : List (NodeId × Message))
    (o : Outcome RemoteResult) :
    RemoteResult.after p (RemoteResult.after q o) = RemoteResult.after (p ++ q) o := by
  cases o with
  | returned r => simp [RemoteResult.after, List.append_assoc]
  | fatal => rfl
  | outOfFuel => rfl

theorem queryLoop_first_reply (net : Net) (self target : NodeId)
    (recurse : Bucket → Outcome RemoteResult) (c : NodeId) (post : List NodeId)
    (reply : Message)
    (hreply : net c (findNodeRequest self c target) = some reply)
    (hnonempty : reply.Nodes ≠ [])
    (hwithout : (reply.Has target).1 = false) :
    ∀ pre : List NodeId,
      (∀ x ∈ pre, ∃ m, net x (findNodeRequest self x target) = some m ∧ m.Nodes = []) →
      queryLoop net self target recurse (pre ++ c :: post) =
        RemoteResult.after ((pre ++ [c]).map (fun x => (x, findNodeRequest self x target)))
          (recurse (NewBucket reply.Nodes))
  | [] => fun _ => by
    have hlen : reply.Nodes.length ≠ 0 := fun h => hnonempty (List.length_eq_zero.mp h)
    show queryLoop net self target recurse (c :: post) = _
    unfold queryLoop
    simp only [hreply, Message.Has_absent hwithout, hlen, ne_eq, not_false_eq_true, if_true]
    rfl
  | x :: pre => fun hpre => by
    obtain ⟨m, hm, hnodes⟩ := hpre x (List.mem_cons_self x pre)
    have ih := queryLoop_first_reply net self target recurse c post reply hreply hnonempty
      hwithout pre (fun y hy => hpre y (List.mem_cons_of_mem x hy))
    show queryLoop net self target recurse (x :: (pre ++ c :: post)) = _
    unfold queryLoop
    simp only [hm, Message.Has_of_no_nodes target hnodes, hnodes, List.length_nil, ne_eq,
      not_true_eq_false, if_false, ih, RemoteResult.after_after]
    rfl

/-- C17: in `findNodeRemote(target, bucket)`, let `c` be the first contact of
the bucket whose reply has a non-empty `Nodes` list (the contacts `pre` before
it answer with empty lists), and let that reply not contain the target. Then
the loop over the bucket returns what the recursive call on
`NewBucket(reply.Nodes)` returns, after one request to each contact of `pre`
and to `c` and none to the contacts `post` after `c`; so does
`findNodeRemote` when its guard on the node itself does not fire; and the
result is the same for every list of contacts after `c`. -/
theorem C17_first_informative_reply (net : Net) (self target : NodeId)
    (pre post : List NodeId) (c : NodeId) (reply : Message)
    (hpre : ∀ x ∈ pre, ∃ m, net x (findNodeRequest self x target) = some m ∧ m.Nodes = [])
    (hreply : net c (findNodeRequest self c target) = some reply)
    (hnonempty : reply.Nodes ≠ [])
    (hwithout : (reply.Has target).1 = false) :
    (∀ recurse : Bucket → Outcome RemoteResult,
      queryLoop net self target recurse (pre ++ c :: post) =
        RemoteResult.after ((pre ++ [c]).map (fun x => (x, findNodeRequest self x target)))
          (recurse (NewBucket reply.Nodes))) ∧
    (∀ fuel, ((⟨pre ++ c :: post⟩ : Bucket).Has self).1 = false →
      findNodeRemote net self target (fuel + 1) ⟨pre ++ c :: post⟩ =
        RemoteResult.after ((pre ++ [c]).map (fun x => (x, findNodeRequest self x target)))
          (findNodeRemote net self target fuel (NewBucket reply.Nodes))) ∧
    (∀ (recurse : Bucket → Outcome RemoteResult) (post2 : List NodeId),
      queryLoop net self target recurse (pre ++ c :: post) =
        queryLoop net self target recurse (pre ++ c :: post2)) := by
  refine ⟨fun recurse => ?_, fun fuel hguard => ?_, fun recurse post2 => ?_⟩
  · exact queryLoop_first_reply net self target recurse c post reply hreply hnonempty
      hwithout pre hpre
  · rw [findNodeRemote_succ net self target fuel _ hguard]
    exact queryLoop_first_reply net self target _ c post reply hreply hnonempty
      hwithout pre hpre
  · rw [queryLoop_first_reply net self target recurse c post reply hreply hnonempty
        hwithout pre hpre,
      queryLoop_first_reply net self target recurse c post2 reply hreply hnonempty
        hwithout pre hpre]

set_option maxRecDepth 100000 in
/-- Witness of C17: the node `idA` searches `idK` in the bucket
`[idC, idB, idK]`; `idC` answers without contacts, `idB` answers `[idC]`, and
`idK` is not asked. -/
theorem C17_first_informative_reply_witness :
    (∀ recurse : Bucket → Outcome RemoteResult,
      queryLoop (netOnly idB idC) idA idK recurse ([idC] ++ idB :: [idK]) =
        RemoteResult.after (([idC] ++ [idB]).map (fun x => (x, findNodeRequest idA x idK)))
          (recurse (NewBucket [idC]))) ∧
    (∀ fuel, findNodeRemote (netOnly idB idC) idA idK (fuel + 1) ⟨[idC] ++ idB :: [idK]⟩ =
        RemoteResult.after (([idC] ++ [idB]).map (fun x => (x, findNodeRequest idA x idK)))
          (findNodeRemote (netOnly idB idC) idA idK fuel (NewBucket [idC]))) :=
  have h := C17_first_informative_reply (netOnly idB idC) idA idK [idC] [idK] idB
    { findNodeRequest idA idB idK with Nodes := [idC] }
    (by
      intro x hx
      rw [List.mem_singleton.mp hx]
      exact ⟨_, rfl, rfl⟩)
    rfl (by simp) (by decide)
  ⟨h.1, fun fuel => h.2.1 fuel (by decide)⟩

end Kad
